import Mathlib

/-!
A shallow embedding of the backdrop-aware filter pass manager of
pixi-picture (`src/FilterSystemMixin.ts`).  Geometry is carried out over
`ℚ`; JS `Math.round` is `⌊q + 1/2⌋`; external collaborators (the texture
pool sizing, `roundFrame`, `transformAABB`, matrix inversion) are function
parameters collected in an `Env` record; every GPU-visible action
(texture acquisition and release, filter application, pixel copies,
framebuffer clears, warnings) is recorded in an event trace on the world
state, so that resource and invocation claims become statements about the
trace.
-/

namespace Picture

/-- Axis-aligned rectangle, mirroring `PIXI.Rectangle` (`x`, `y`, `width`,
`height`). -/
structure Rect where
  x : ℚ
  y : ℚ
  width : ℚ
  height : ℚ
deriving DecidableEq, Repr, Inhabited

/-- Modelled from the spec: `Rectangle.pad` from `@pixi/math` (not under
`src/`), "expand symmetrically by `padding`" (§4.1 step 3). -/
def Rect.pad (r : Rect) (p : ℚ) : Rect :=
  { x := r.x - p, y := r.y - p, width := r.width + 2 * p, height := r.height + 2 * p }

/-- Modelled from the spec: `Rectangle.fit` from `@pixi/math` (not under
`src/`), "shrink `sourceFrame` to its intersection with the projected
visible frame" (§4.1 step 5), dimensions clamped at 0. -/
def Rect.fit (r frame : Rect) : Rect :=
  let x1 := max r.x frame.x
  let x2 := min (r.x + r.width) (frame.x + frame.width)
  let y1 := max r.y frame.y
  let y2 := min (r.y + r.height) (frame.y + frame.height)
  { x := x1, y := y1, width := max (x2 - x1) 0, height := max (y2 - y1) 0 }

/-- Modelled from the spec: `Rectangle.intersects` from `@pixi/math` (not
under `src/`), non-empty overlap of the two closed rectangles with strict
interior intersection (§4.1 step 6). -/
def Rect.intersects (r o : Rect) : Bool :=
  let x0 := max r.x o.x
  let x1 := min (r.x + r.width) (o.x + o.width)
  if x1 ≤ x0 then false
  else
    let y0 := max r.y o.y
    let y1 := min (r.y + r.height) (o.y + o.height)
    decide (y0 < y1)

/-- `containsRect` from `FilterSystemMixin.ts`: `rectIn` lies inside
`rectOut` (all eight edge comparisons of the source). -/
def containsRect (rectOut rectIn : Rect) : Bool :=
  let r1 := rectIn.x + rectIn.width
  let b1 := rectIn.y + rectIn.height
  let r2 := rectOut.x + rectOut.width
  let b2 := rectOut.y + rectOut.height
  decide (rectIn.x ≥ rectOut.x) && decide (rectIn.x ≤ r2)
    && decide (rectIn.y ≥ rectOut.y) && decide (rectIn.y ≤ b2)
    && decide (r1 ≥ rectOut.x) && decide (r1 ≤ r2)
    && decide (b1 ≥ rectOut.y) && decide (b1 ≤ b2)

/-- 2D affine matrix, mirroring `PIXI.Matrix`. -/
structure Mat where
  a : ℚ
  b : ℚ
  c : ℚ
  d : ℚ
  tx : ℚ
  ty : ℚ
deriving DecidableEq, Repr, Inhabited

/-- `Matrix.IDENTITY`. -/
def Mat.identity : Mat := ⟨1, 0, 0, 1, 0, 0⟩

/-- JS `Math.round`: round half toward positive infinity. -/
def jround (q : ℚ) : ℤ := ⌊q + 1 / 2⌋

/-- A value stored in a filter's `uniforms` mapping: either a texture
reference (possibly `null`) or a two-element `Float32Array` flip
descriptor. -/
inductive UVal where
  | tex : Option ℕ → UVal
  | flipArr : ℚ → ℚ → UVal
deriving DecidableEq, Repr

/-- Lookup in a `uniforms` mapping (an association list, so that an absent
key is distinguishable from a key holding `null`). -/
def uget (u : List (String × UVal)) (k : String) : Option UVal :=
  (u.find? (fun e => e.1 = k)).map (fun e => e.2)

/-- Assignment `uniforms[k] = v`: replace in place, or append. -/
def uset : List (String × UVal) → String → UVal → List (String × UVal)
  | [], k, v => [(k, v)]
  | (k', v') :: rest, k, v =>
      if k' = k then (k, v) :: rest else (k', v') :: uset rest k v

/-- JS truthiness of a uniform slot: absent, or present holding `null`,
is falsy; a texture or a `Float32Array` is truthy. -/
def uvalTruthy : Option UVal → Bool
  | none => false
  | some (UVal.tex none) => false
  | some (UVal.tex (some _)) => true
  | some (UVal.flipArr _ _) => true

/-- JS truthiness of an optional string (`backdropUniformName`): absent or
empty is falsy. -/
def optStrTruthy : Option String → Bool
  | none => false
  | some s => decide (s ≠ "")

/-- A pooled render texture: identity, reported dimensions, logical
resolution tag, sample count, and the `filterFrame` metadata tag. -/
structure Tex where
  id : ℕ
  width : ℚ
  height : ℚ
  resolution : ℚ
  multisample : ℕ
  filterFrame : Option Rect
deriving DecidableEq, Repr, Inhabited

/-- A filter chain entry (external entity): the declared capabilities read
by the pass manager, plus the mutable parts it writes (`uniforms`,
`_backdropActive`, `state`).  A filter's `state` object is identified by a
number (`fstate`).  `resolution` / `multisample` / `legacy` are optional
to model JS `undefined` (the code falls back with `||` resp. `??`). -/
structure FilterObj where
  resolution : Option ℚ
  multisample : Option ℕ
  padding : ℚ
  autoFit : Bool
  legacy : Option Bool
  backdropUniformName : Option String
  trivial : Bool
  clearColor : Option (ℚ × ℚ × ℚ × ℚ)
  uniforms : List (String × UVal)
  backdropActive : Bool
  fstate : ℕ
deriving DecidableEq, Repr, Inhabited

/-- One `FilterState` instance (the region state pushed per open region). -/
structure FState where
  sourceFrame : Rect
  destinationFrame : Rect
  bindingSourceFrame : Rect
  bindingDestinationFrame : Rect
  resolution : ℚ
  multisample : ℕ
  legacy : Bool
  filters : List FilterObj
  renderTexture : Option Tex
  transform : Option Mat
  targetId : Option ℕ
deriving DecidableEq, Repr

/-- Modelled from the spec: the `new FilterState()` constructor of
`@pixi/core` (not under `src/`): zeroed frames, resolution 1, no
multisample, `legacy = false`, empty chain, no textures (§3
FilterFrameState lifecycle). -/
def FState.new : FState :=
  { sourceFrame := ⟨0, 0, 0, 0⟩, destinationFrame := ⟨0, 0, 0, 0⟩,
    bindingSourceFrame := ⟨0, 0, 0, 0⟩, bindingDestinationFrame := ⟨0, 0, 0, 0⟩,
    resolution := 1, multisample := 0, legacy := false, filters := [],
    renderTexture := none, transform := none, targetId := none }

instance : Inhabited FState := ⟨FState.new⟩

/-- Modelled from the spec: `FilterState.clear` of `@pixi/core` (not under
`src/`): drop the target, the chain and the texture reference before the
state returns to the free list (§3: "fields are cleared (all texture
references released) before returning to the pool"). -/
def FState.clear (s : FState) : FState :=
  { s with targetId := none, filters := [], renderTexture := none }

/-- A 4-component uniform vector. -/
structure V4 where
  v0 : ℚ
  v1 : ℚ
  v2 : ℚ
  v3 : ℚ
deriving DecidableEq, Repr, Inhabited

/-- The global uniform block fields written by `pop`. -/
structure GU where
  outputFrame : Rect
  resolution : ℚ
  inputSize : V4
  inputPixel : V4
  inputClamp : V4
  filterArea : V4
  filterClamp : V4
deriving DecidableEq, Repr, Inhabited

/-- Observable events of one push/pop cycle: pooled-texture acquisitions
(`getOptimalFilterTexture`) and releases (`returnFilterTexture`), filter
`apply` invocations (with the filter's chain index, its `state` object id,
input/output texture and blend flag), the backdrop pixel copy, the
framebuffer clear, the one-time console warning, `prepareBackdrop` entry,
a multisample resolve (`blit`) and the legacy-uniform population. -/
inductive Ev where
  | acquire : ℕ → Ev
  | release : ℕ → Ev
  | applyF : ℕ → ℕ → ℕ → Option ℕ → Bool → Ev
  | copyPixels : ℤ → ℤ → ℤ → ℤ → Ev
  | clearFB : ℚ → ℚ → ℚ → ℚ → Ev
  | warn : Ev
  | prepareB : Ev
  | blit : Ev
  | legacyUniforms : Ev
deriving DecidableEq, Repr

/-- The mutable world: the region stack, the state free list, a fresh
texture-id counter, the module-level `hadBackbufferError` flag, a flag
recording that JS would have thrown (`crashed`), the global uniform block,
and the event trace. -/
structure W where
  filterStack : List FState
  statePool : List FState
  nextTex : ℕ
  hadBackbufferError : Bool
  crashed : Bool
  gu : GU
  trace : List Ev
deriving DecidableEq, Repr, Inhabited

/-- The renderer environment read (but never written) during one cycle:
the currently bound render texture (`renderTextureSystem.current`), the
renderer's own resolution/multisample, the render-target tracking frames,
the projection transform, the configured background alpha, the
`useMaxPadding` configuration flag, and the external geometry/pool
helpers as abstract functions. -/
structure Env where
  current : Option Tex
  rendererResolution : ℚ
  rendererMultisample : ℕ
  sourceFrame : Rect
  destinationFrame : Rect
  projTransform : Option Mat
  backgroundAlpha : ℚ
  useMaxPadding : Bool
  invert : Mat → Mat
  transformAABB : Mat → Rect → Rect
  roundFrame : Rect → ℚ → Rect → Rect → Option Mat → Rect
  poolDims : ℚ → ℚ → ℚ × ℚ

/-- `renderTextureSystem.current ? current.resolution : renderer.resolution`. -/
def currentResolution (env : Env) : ℚ :=
  match env.current with
  | some rt => rt.resolution
  | none => env.rendererResolution

/-- `renderTextureSystem.current ? current.multisample : renderer.multisample`. -/
def currentMultisample (env : Env) : ℕ :=
  match env.current with
  | some rt => rt.multisample
  | none => env.rendererMultisample

/-- `filter.resolution || currentResolution`: JS `||` falls back on a
missing or zero declared resolution. -/
def resolveRes (cur : ℚ) (f : FilterObj) : ℚ :=
  match f.resolution with
  | none => cur
  | some r => if r = 0 then cur else r

/-- `filter.multisample ?? currentMultisample`: JS `??` falls back only on
a missing value. -/
def resolveMs (cur : ℕ) (f : FilterObj) : ℕ := f.multisample.getD cur

/-- The aggregate settings computed by the loop of `pushWithCheck`
(lines 82-109 of `FilterSystemMixin.ts`). -/
structure Agg where
  resolution : ℚ
  multisample : ℕ
  padding : ℚ
  autoFit : Bool
  legacy : Bool
deriving DecidableEq, Repr, Inhabited

/-- One iteration of the aggregation loop. -/
def aggStep (useMaxPadding : Bool) (cur : ℚ) (cms : ℕ) (a : Agg) (f : FilterObj) : Agg :=
  { resolution := min a.resolution (resolveRes cur f),
    multisample := min a.multisample (resolveMs cms f),
    padding := if useMaxPadding then max a.padding f.padding else a.padding + f.padding,
    autoFit := a.autoFit && f.autoFit,
    legacy := a.legacy || f.legacy.getD true }

/-- The seed of the aggregation (from `filters[0]`; `legacy` defaults to
`true` when undeclared). -/
def aggInit (cur : ℚ) (cms : ℕ) (f0 : FilterObj) : Agg :=
  { resolution := resolveRes cur f0, multisample := resolveMs cms f0,
    padding := f0.padding, autoFit := f0.autoFit, legacy := f0.legacy.getD true }

/-- The full aggregation over a non-empty chain `f0 :: rest`. -/
def aggregate (useMaxPadding : Bool) (cur : ℚ) (cms : ℕ) (f0 : FilterObj)
    (rest : List FilterObj) : Agg :=
  rest.foldl (aggStep useMaxPadding cur cms) (aggInit cur cms f0)

/-- `getOptimalFilterTexture(width, height, resolution, multisample)`: a
fresh pooled texture whose reported dimensions come from the abstract pool
sizing, recorded as an acquisition event. -/
def getOptimalFilterTexture (env : Env) (w h res : ℚ) (ms : ℕ) (st : W) : Tex × W :=
  let dims := env.poolDims w h
  let t : Tex := { id := st.nextTex, width := dims.1, height := dims.2,
                   resolution := res, multisample := ms, filterFrame := none }
  (t, { st with nextTex := st.nextTex + 1, trace := st.trace ++ [Ev.acquire t.id] })

/-- `returnFilterTexture(texture)`: recorded as a release event. -/
def returnTex (tid : ℕ) (st : W) : W :=
  { st with trace := st.trace ++ [Ev.release tid] }

/-- The capture tail of `prepareBackdrop` once the source's resolution and
flip sign are known: compute the integer copy rectangle, acquire a pooled
texture at resolution 1, record the flip fraction, retag the texture
(`filterFrame` and `setResolution` — per §4.2 step 4 only the logical
resolution tag changes) and issue the pixel copy. -/
def prepareBackdropGo (env : Env) (bounds : Rect) (resolution : ℚ) (flipY : ℚ × ℚ)
    (st : W) : Option Tex × (ℚ × ℚ) × W :=
  let fr := env.sourceFrame
  let tf := env.projTransform.getD Mat.identity
  let x := jround ((bounds.x - fr.x + tf.tx) * resolution)
  let dy := bounds.y - fr.y + tf.ty
  let y := jround ((if flipY.2 < 0 then fr.height - (dy + bounds.height) else dy) * resolution)
  let w := jround (bounds.width * resolution)
  let h := jround (bounds.height * resolution)
  let got := getOptimalFilterTexture env (w : ℚ) (h : ℚ) 1 0 st
  let rt := got.1
  let st1 := got.2
  let flipY1 := if flipY.2 < 0 then ((h : ℚ) / rt.height, flipY.2) else (0, flipY.2)
  let rt1 := { rt with filterFrame := some fr, resolution := resolution }
  let st2 := { st1 with trace := st1.trace ++ [Ev.copyPixels x y w h] }
  (some rt1, flipY1, st2)

/-- `prepareBackdrop(bounds, flipY)` (`FilterSystemMixin.ts` lines
419-478).  Returns the captured texture (or `none`), the final value of
the caller-owned `flipY` array (the code mutates it in place), and the new
world.  On the main backbuffer with opaque background it fails with a
one-time warning; otherwise it captures via `prepareBackdropGo` with the
bound texture's resolution and flip sign `+1`, or the renderer's
resolution and flip sign `-1`. -/
def prepareBackdrop (env : Env) (bounds : Rect) (flipY : ℚ × ℚ) (st : W) :
    Option Tex × (ℚ × ℚ) × W :=
  let st := { st with trace := st.trace ++ [Ev.prepareB] }
  match env.current with
  | some renderTarget => prepareBackdropGo env bounds renderTarget.resolution (flipY.1, 1) st
  | none =>
      if 1 ≤ env.backgroundAlpha then
        if st.hadBackbufferError then (none, flipY, st)
        else (none, flipY,
          { st with hadBackbufferError := true, trace := st.trace ++ [Ev.warn] })
      else prepareBackdropGo env bounds env.rendererResolution (flipY.1, -1) st

/-- Whether `prepareBackdrop` can succeed: a render texture is bound, or
the backbuffer preserves content (background alpha below 1). -/
def backdropObtainable (env : Env) : Bool :=
  env.current.isSome || decide (env.backgroundAlpha < 1)

/-- The visible source frame projected into the target's space (lines
130-139): the inverse projection transform applied to
`renderTextureSystem.sourceFrame`, or that frame unchanged when no
transform is set. -/
def projectedVisible (env : Env) : Rect :=
  match env.projTransform with
  | some tf => env.transformAABB (env.invert tf) env.sourceFrame
  | none => env.sourceFrame

/-- The Frame Geometry Resolver part of `pushWithCheck` (lines 123-170):
pad the target rectangle, auto-fit it to the projected visible frame
(zeroing degenerate results) or — without auto-fit — test backdrop
containment and zero the frame when it misses the visible frame entirely,
then round via the external `roundFrame` helper.  Returns the rounded
source frame and the `canUseBackdrop` flag. -/
def resolveSourceFrame (env : Env) (targetRect : Rect) (padding : ℚ)
    (autoFit : Bool) : Rect × Bool :=
  let sf0 := targetRect.pad padding
  let svp := projectedVisible env
  let cb0 : Bool := decide (currentMultisample env = 0)
  let fitted :=
    if autoFit then
      let f := sf0.fit svp
      (if f.width ≤ 0 ∨ f.height ≤ 0 then { f with width := 0, height := 0 } else f, cb0)
    else
      (if ¬ (sf0.intersects svp : Bool) = true
        then { sf0 with width := 0, height := 0 } else sf0,
       containsRect env.sourceFrame sf0)
  let sf1 := fitted.1
  let sf2 := env.roundFrame sf1 (currentResolution env) env.sourceFrame
    env.destinationFrame env.projTransform
  (sf2, fitted.2)

/-- `if (!uniforms[bName_flipY]) uniforms[bName_flipY] = new Float32Array([0.0, 1.0])`. -/
def ensureFlip (f : FilterObj) (bName : String) : List (String × UVal) :=
  if uvalTruthy (uget f.uniforms (bName ++ "_flipY")) then f.uniforms
  else uset f.uniforms (bName ++ "_flipY") (UVal.flipArr 0 1)

/-- The value of the (ensured) `_flipY` uniform. -/
def readFlip (u : List (String × UVal)) (bName : String) : ℚ × ℚ :=
  match uget u (bName ++ "_flipY") with
  | some (UVal.flipArr a b) => (a, b)
  | _ => (0, 1)

/-- The backdrop-detection loop of `pushWithCheck` (lines 182-218):
walks the chain; for every filter with a truthy `backdropUniformName` it
ensures the `_flipY` uniform exists, captures the backdrop on the first
such filter (retrying while the capture keeps failing, as the code guards
on `backdrop === null`), copies the shared flip values into later
filters, assigns the (possibly `null`) backdrop into the filter's uniform
and marks the filter backdrop-active on success.  Accumulator: the shared
backdrop texture and flip descriptor. -/
def backdropLoop (env : Env) (sf : Rect) :
    List FilterObj → Option Tex × Option (ℚ × ℚ) → W →
      List FilterObj × (Option Tex × Option (ℚ × ℚ)) × W
  | [], acc, st => ([], acc, st)
  | f :: fs, acc, st =>
      if optStrTruthy f.backdropUniformName then
        let bName := f.backdropUniformName.getD ""
        let flipKey := bName ++ "_flipY"
        let u0 := ensureFlip f bName
        let flip := readFlip u0 bName
        match acc with
        | (none, _) =>
            let pb := prepareBackdrop env sf flip st
            let b := pb.1
            let flip' := pb.2.1
            let st1 := pb.2.2
            let u1 := uset u0 flipKey (UVal.flipArr flip'.1 flip'.2)
            let u2 := uset u1 bName (UVal.tex (b.map Tex.id))
            let f' := { f with
              uniforms := u2,
              backdropActive := if b.isSome then true else f.backdropActive }
            let r := backdropLoop env sf fs (b, some flip') st1
            (f' :: r.1, r.2)
        | (some btex, some bf) =>
            let u1 := uset u0 flipKey (UVal.flipArr bf.1 bf.2)
            let u2 := uset u1 bName (UVal.tex (some btex.id))
            let f' := { f with uniforms := u2, backdropActive := true }
            let r := backdropLoop env sf fs (some btex, some bf) st
            (f' :: r.1, r.2)
        | (some btex, none) =>
            -- JS would dereference a null `backdropFlip` here (unreachable
            -- from the loop's own accumulator).
            let r := backdropLoop env sf fs (some btex, none) { st with crashed := true }
            (f :: r.1, r.2)
      else
        let r := backdropLoop env sf fs acc st
        (f :: r.1, r.2)

/-- Result of opening a region: outcome flag, the (mutated) filter array,
and the new world. -/
structure PushResult where
  ok : Bool
  filters : List FilterObj
  world : W
deriving Repr

/-- The root-state bookkeeping of lines 111-114: when exactly one state
(the root) is on the stack, refresh its `renderTexture` to the currently
bound target. -/
def rootUpdate (env : Env) (stack : List FState) : List FState :=
  if stack.length = 1 then
    match stack with
    | s :: t => { s with renderTexture := env.current } :: t
    | [] => []
  else stack

/-- The accepted-region tail of `pushWithCheck` (lines 181-260): run the
backdrop detection when eligible, acquire the working texture (at the
backdrop's resolution when one was captured, else the chain's), record
frames, chain and suspended transform in the region state, push it, and
clear the bound framebuffer to the last filter's clear color or
transparent black.  (`renderer.projection.transform = null` and the
render-texture bind have no effect on the world observed within one
cycle.) -/
def pushOpen (env : Env) (f0 : FilterObj) (rest : List FilterObj) (state1 : FState)
    (stack0 pool0 : List FState) (sf : Rect) (canUseBackdrop : Bool) (agg : Agg)
    (st : W) : PushResult :=
  let bl :=
    if canUseBackdrop then backdropLoop env sf (f0 :: rest) (none, none) st
    else (f0 :: rest, (none, none), st)
  let filters1 := bl.1
  let backdrop := bl.2.1.1
  let st1 := bl.2.2
  let resolution1 := match backdrop with
    | some b => b.resolution
    | none => agg.resolution
  let got := getOptimalFilterTexture env sf.width sf.height resolution1
    agg.multisample st1
  let rt := { got.1 with filterFrame := some sf }
  let state2 := { state1 with
    resolution := resolution1,
    filters := filters1,
    renderTexture := some rt,
    destinationFrame := { state1.destinationFrame with
      width := rt.width, height := rt.height },
    bindingSourceFrame := env.sourceFrame,
    bindingDestinationFrame := env.destinationFrame,
    transform := env.projTransform }
  let cc := ((f0 :: rest).getLastD f0).clearColor
  let st3 := match cc with
    | some c =>
        { got.2 with trace := got.2.trace ++ [Ev.clearFB c.1 c.2.1 c.2.2.1 c.2.2.2] }
    | none => { got.2 with trace := got.2.trace ++ [Ev.clearFB 0 0 0 0] }
  { ok := true, filters := filters1,
    world := { st3 with filterStack := state2 :: stack0, statePool := pool0 } }

/-- `pushWithCheck(target, filters, checkEmptyBounds)` (lines 59-261).
The target is its identity plus the rectangle produced by
`target.filterArea || target.getBounds(true)` (bounds computation is
external).  Aggregates the chain settings, resolves the source frame,
rejects empty bounds when asked (returning the pooled state), otherwise
opens the region via `pushOpen`. -/
def pushWithCheck (env : Env) (targetId : ℕ) (targetRect : Rect)
    (filters : List FilterObj) (checkEmptyBounds : Bool) (st : W) : PushResult :=
  match filters with
  | [] => { ok := false, filters := [], world := { st with crashed := true } }
  | f0 :: rest =>
      let state0 := st.statePool.headD FState.new
      let pool0 := st.statePool.tail
      let agg := aggregate env.useMaxPadding (currentResolution env)
        (currentMultisample env) f0 rest
      let stack0 := rootUpdate env st.filterStack
      let rsf := resolveSourceFrame env targetRect agg.padding agg.autoFit
      let sf := rsf.1
      let canUseBackdrop := rsf.2
      let state1 := { state0 with
        resolution := agg.resolution,
        legacy := agg.legacy,
        targetId := some targetId,
        sourceFrame := sf }
      if checkEmptyBounds ∧ sf.width ≤ 1 ∧ sf.height ≤ 1 then
        { ok := false, filters := f0 :: rest,
          world := { st with
            filterStack := stack0,
            statePool := state1.clear :: pool0 } }
      else
        pushOpen env f0 rest state1 stack0 pool0 sf canUseBackdrop agg st

/-- `push(target, filters)` = `pushWithCheck(target, filters, false)`. -/
def push (env : Env) (targetId : ℕ) (targetRect : Rect)
    (filters : List FilterObj) (st : W) : PushResult :=
  pushWithCheck env targetId targetRect filters false st

/-- A filter `apply` invocation, recorded with its chain index, the
filter's current `state` object, the input texture and output target. -/
def applyEv (idx : ℕ) (f : FilterObj) (inputId : ℕ) (outputId : Option ℕ)
    (blend : Bool) (st : W) : W :=
  { st with trace := st.trace ++ [Ev.applyF idx f.fstate inputId outputId blend] }

/-- The ping-pong loop of `pop` (lines 352-371): `fuel` iterations
starting at index `i`; at `i = 1` under a multisampled state a fresh
`flop` replaces the current one; each iteration applies filter `i` with
clear mode CLEAR and swaps flip/flop. -/
def pingPong (env : Env) (fs : List FilterObj) (res : ℚ) (ms : ℕ) :
    ℕ → ℕ → Tex → Tex → W → Tex × Tex × W
  | _, 0, flip, flop, st => (flip, flop, st)
  | i, fuel + 1, flip, flop, st =>
      let reall :=
        if i = 1 ∧ ms > 1 then
          let got := getOptimalFilterTexture env flip.width flip.height res 0 st
          ({ got.1 with filterFrame := flip.filterFrame }, got.2)
        else (flop, st)
      let st1 := applyEv i (fs.getD i default) flip.id (some reall.1.id) false reall.2
      pingPong env fs res ms (i + 1) fuel reall.1 flip st1

/-- The backdrop-release loop of `pop` (lines 389-405): the first
backdrop-active filter's uniform texture is returned to the pool; every
active filter's uniform is nulled and its flag cleared. -/
def backdropRelease : List FilterObj → Bool → W → List FilterObj × W
  | [], _, st => ([], st)
  | f :: fs, freed, st =>
      if f.backdropActive then
        let bName := f.backdropUniformName.getD ""
        let st1 :=
          if freed then st
          else
            match uget f.uniforms bName with
            | some (UVal.tex (some tid)) => returnTex tid st
            | _ => { st with crashed := true }
        let f' := { f with
          uniforms := uset f.uniforms bName (UVal.tex none),
          backdropActive := false }
        let r := backdropRelease fs true st1
        (f' :: r.1, r.2)
      else
        let r := backdropRelease fs freed st
        (f :: r.1, r.2)

/-- The shared-uniform stage of `pop` (lines 275-314): pop the state off
the stack, publish `outputFrame`/`resolution`/`inputSize`/`inputPixel`/
`inputClamp`, and — when the chain is legacy — the `filterArea` /
`filterClamp` pair. -/
def popUniforms (state : FState) (restStack : List FState) (st : W) : W :=
  let dfW := state.destinationFrame.width
  let dfH := state.destinationFrame.height
  let inputSize : V4 := ⟨dfW, dfH, 1 / dfW, 1 / dfH⟩
  let ip0 : ℚ := (jround (inputSize.v0 * state.resolution) : ℤ)
  let ip1 : ℚ := (jround (inputSize.v1 * state.resolution) : ℤ)
  let inputPixel : V4 := ⟨ip0, ip1, 1 / ip0, 1 / ip1⟩
  let inputClamp : V4 := ⟨(1 / 2) * inputPixel.v2, (1 / 2) * inputPixel.v3,
    state.sourceFrame.width * inputSize.v2 - (1 / 2) * inputPixel.v2,
    state.sourceFrame.height * inputSize.v3 - (1 / 2) * inputPixel.v3⟩
  let gu0 := { st.gu with
    outputFrame := state.sourceFrame,
    resolution := state.resolution,
    inputSize := inputSize,
    inputPixel := inputPixel,
    inputClamp := inputClamp }
  let gu1 := if state.legacy then
      { gu0 with
        filterArea := ⟨dfW, dfH, state.sourceFrame.x, state.sourceFrame.y⟩,
        filterClamp := inputClamp }
    else gu0
  { st with
    filterStack := restStack,
    gu := gu1,
    trace := st.trace ++ (if state.legacy then [Ev.legacyUniforms] else []) }

/-- The multisample resolve of `pop` (lines 318-321): blit when the
working texture's framebuffer is multisampled. -/
def popBlit (rt : Tex) (st : W) : W :=
  if rt.multisample > 1 then { st with trace := st.trace ++ [Ev.blit] } else st

/-- The chain-execution stage of `pop` (lines 333-382), on the trivial-
adjusted chain `filters1` of effective length `effLen`: a single filter
applies straight into the enclosing target and the working texture is
returned; a longer chain acquires a `flop`, ping-pongs, applies the last
filter with blending, returns the working texture again under the
multisample juggling condition, then returns both ping-pong textures. -/
def popChain (env : Env) (state : FState) (filters1 : List FilterObj) (effLen : ℕ)
    (rt : Tex) (outId : Option ℕ) (st : W) : W :=
  if effLen = 1 then
    returnTex rt.id (applyEv 0 (filters1.getD 0 default) rt.id outId true st)
  else
    let got := getOptimalFilterTexture env rt.width rt.height state.resolution 0 st
    let flop0 := { got.1 with filterFrame := rt.filterFrame }
    let pp := pingPong env filters1 state.resolution state.multisample 0
      (effLen - 1) rt flop0 got.2
    let stB := applyEv (effLen - 1) (filters1.getD (effLen - 1) default)
      pp.1.id outId true pp.2.2
    let stC := if effLen - 1 > 1 ∧ state.multisample > 1
      then returnTex rt.id stB else stB
    returnTex pp.2.1.id (returnTex pp.1.id stC)

/-- `pop()` (lines 269-411): pop the region state, publish the shared
uniform block (`popUniforms`), resolve a multisampled working texture
(`popBlit`), drop a trivial final filter after swapping its `state`
object onto the filter that will actually render last, run the chain
(`popChain`), restore the swapped `state` object, release the backdrop,
and recycle the region state.  Returns the mutated filter array and the
world. -/
def pop (env : Env) (st : W) : List FilterObj × W :=
  match st.filterStack with
  | [] => ([], { st with crashed := true })
  | state :: restStack =>
      match state.renderTexture, restStack with
      | some rt, lastState :: _ =>
          let filters := state.filters
          let st1 := popBlit rt (popUniforms state restStack st)
          let len := filters.length
          let doTrivial := 2 ≤ len ∧ (filters.getLastD default).trivial = true
          let tmpState : Option ℕ :=
            if doTrivial then some ((filters.getD (len - 2) default).fstate) else none
          let filters1 :=
            if doTrivial then
              filters.set (len - 2)
                { filters.getD (len - 2) default with
                  fstate := (filters.getD (len - 1) default).fstate }
            else filters
          let effLen := if doTrivial then len - 1 else len
          let outId := lastState.renderTexture.map Tex.id
          let chain := popChain env state filters1 effLen rt outId st1
          let filters2 :=
            match tmpState with
            | some tmp =>
                filters1.set (effLen - 1)
                  { filters1.getD (effLen - 1) default with fstate := tmp }
            | none => filters1
          let br := backdropRelease filters2 false chain
          (br.1, { br.2 with statePool := state.clear :: br.2.statePool })
      | _, _ => ([], { st with crashed := true, filterStack := restStack })

/-- One full open/close cycle: `pushWithCheck` and — when the region was
accepted — its matching `pop`. -/
def cycleWorld (env : Env) (targetId : ℕ) (targetRect : Rect)
    (filters : List FilterObj) (check : Bool) (st : W) : W :=
  let r := pushWithCheck env targetId targetRect filters check st
  if r.ok then (pop env r.world).2 else r.world

/-- Number of pooled-texture acquisitions recorded in a trace. -/
def countAcq : List Ev → ℕ
  | [] => 0
  | Ev.acquire _ :: t => countAcq t + 1
  | _ :: t => countAcq t

/-- Number of pooled-texture releases recorded in a trace. -/
def countRel : List Ev → ℕ
  | [] => 0
  | Ev.release _ :: t => countRel t + 1
  | _ :: t => countRel t

/-- Number of console warnings recorded in a trace. -/
def countWarn : List Ev → ℕ
  | [] => 0
  | Ev.warn :: t => countWarn t + 1
  | _ :: t => countWarn t

/-- The filter `apply` invocations of a trace, as (chain index, `state`
object id, blend flag) triples in order. -/
def applyEvents : List Ev → List (ℕ × ℕ × Bool)
  | [] => []
  | Ev.applyF i s _ _ b :: t => (i, s, b) :: applyEvents t
  | _ :: t => applyEvents t

theorem countAcq_append (a b : List Ev) : countAcq (a ++ b) = countAcq a + countAcq b := by
  induction a with
  | nil => simp [countAcq]
  | cons e t ih => cases e <;> simp [countAcq, ih] <;> omega

theorem countRel_append (a b : List Ev) : countRel (a ++ b) = countRel a + countRel b := by
  induction a with
  | nil => simp [countRel]
  | cons e t ih => cases e <;> simp [countRel, ih] <;> omega

theorem countWarn_append (a b : List Ev) : countWarn (a ++ b) = countWarn a + countWarn b := by
  induction a with
  | nil => simp [countWarn]
  | cons e t ih => cases e <;> simp [countWarn, ih] <;> omega

theorem applyEvents_append (a b : List Ev) :
    applyEvents (a ++ b) = applyEvents a ++ applyEvents b := by
  induction a with
  | nil => simp [applyEvents]
  | cons e t ih => cases e <;> simp [applyEvents, ih]

/-! ### The aggregation fold, componentwise -/

theorem aggFold_resolution (u : Bool) (cur : ℚ) (cms : ℕ) :
    ∀ (l : List FilterObj) (a : Agg),
      (l.foldl (aggStep u cur cms) a).resolution
        = l.foldl (fun r f => min r (resolveRes cur f)) a.resolution := by
  intro l
  induction l with
  | nil => intro a; rfl
  | cons f fs ih =>
      intro a
      rw [List.foldl_cons, List.foldl_cons, ih]
      rfl

theorem aggFold_multisample (u : Bool) (cur : ℚ) (cms : ℕ) :
    ∀ (l : List FilterObj) (a : Agg),
      (l.foldl (aggStep u cur cms) a).multisample
        = l.foldl (fun r f => min r (resolveMs cms f)) a.multisample := by
  intro l
  induction l with
  | nil => intro a; rfl
  | cons f fs ih =>
      intro a
      rw [List.foldl_cons, List.foldl_cons, ih]
      rfl

theorem aggFold_padding (u : Bool) (cur : ℚ) (cms : ℕ) :
    ∀ (l : List FilterObj) (a : Agg),
      (l.foldl (aggStep u cur cms) a).padding
        = l.foldl (fun p f => if u then max p f.padding else p + f.padding) a.padding := by
  intro l
  induction l with
  | nil => intro a; rfl
  | cons f fs ih =>
      intro a
      rw [List.foldl_cons, List.foldl_cons, ih]
      rfl

theorem aggFold_autoFit (u : Bool) (cur : ℚ) (cms : ℕ) :
    ∀ (l : List FilterObj) (a : Agg),
      (l.foldl (aggStep u cur cms) a).autoFit
        = l.foldl (fun b f => b && f.autoFit) a.autoFit := by
  intro l
  induction l with
  | nil => intro a; rfl
  | cons f fs ih =>
      intro a
      rw [List.foldl_cons, List.foldl_cons, ih]
      rfl

theorem aggFold_legacy (u : Bool) (cur : ℚ) (cms : ℕ) :
    ∀ (l : List FilterObj) (a : Agg),
      (l.foldl (aggStep u cur cms) a).legacy
        = l.foldl (fun b f => b || f.legacy.getD true) a.legacy := by
  intro l
  induction l with
  | nil => intro a; rfl
  | cons f fs ih =>
      intro a
      rw [List.foldl_cons, List.foldl_cons, ih]
      rfl

/-! ### Folds of `min`, `max`, `&&`, `||`, `+` -/

theorem foldl_min_min {α : Type} [LinearOrder α] (l : List α) :
    ∀ a b : α, l.foldl min (min a b) = min a (l.foldl min b) := by
  induction l with
  | nil => intro a b; rfl
  | cons x xs ih =>
      intro a b
      rw [List.foldl_cons, List.foldl_cons, min_assoc, ih]

theorem perm_foldl_min {α : Type} [LinearOrder α] {l₁ l₂ : List α} (h : l₁.Perm l₂) :
    ∀ a, l₁.foldl min a = l₂.foldl min a := by
  induction h with
  | nil => intro a; rfl
  | cons x _ ih => intro a; rw [List.foldl_cons, List.foldl_cons]; exact ih _
  | swap x y l =>
      intro a
      rw [List.foldl_cons, List.foldl_cons, List.foldl_cons, List.foldl_cons,
        min_right_comm]
  | trans _ _ ih1 ih2 => intro a; rw [ih1, ih2]

theorem foldl_min_head_perm {α : Type} [LinearOrder α] {x y : α} {xs ys : List α}
    (h : (x :: xs).Perm (y :: ys)) : xs.foldl min x = ys.foldl min y := by
  have h1 := perm_foldl_min h x
  rw [List.foldl_cons, min_self] at h1
  rw [List.foldl_cons, foldl_min_min] at h1
  have h2 := perm_foldl_min h.symm y
  rw [List.foldl_cons, min_self] at h2
  rw [List.foldl_cons, foldl_min_min] at h2
  exact le_antisymm (h1 ▸ min_le_right _ _) (h2 ▸ min_le_right _ _)

theorem foldl_min_mem {α : Type} [LinearOrder α] :
    ∀ (l : List α) (a : α), l.foldl min a = a ∨ l.foldl min a ∈ l := by
  intro l
  induction l with
  | nil => intro a; exact Or.inl rfl
  | cons x xs ih =>
      intro a
      rw [List.foldl_cons]
      rcases ih (min a x) with h | h
      · rcases min_cases a x with ⟨he, _⟩ | ⟨he, _⟩
        · exact Or.inl (h.trans he)
        · exact Or.inr (by rw [h, he]; exact List.mem_cons_self _ _)
      · exact Or.inr (List.mem_cons_of_mem _ h)

theorem foldl_min_le {α : Type} [LinearOrder α] :
    ∀ (l : List α) (a : α), l.foldl min a ≤ a ∧ ∀ x ∈ l, l.foldl min a ≤ x := by
  intro l
  induction l with
  | nil => intro a; exact ⟨le_refl a, by intro x hx; cases hx⟩
  | cons z zs ih =>
      intro a
      rw [List.foldl_cons]
      refine ⟨(ih (min a z)).1.trans (min_le_left a z), ?_⟩
      intro x hx
      rcases List.mem_cons.mp hx with h | h
      · exact h ▸ (ih (min a z)).1.trans (min_le_right a z)
      · exact (ih (min a z)).2 x h

theorem foldl_max_mem {α : Type} [LinearOrder α] :
    ∀ (l : List α) (a : α), l.foldl max a = a ∨ l.foldl max a ∈ l := by
  intro l
  induction l with
  | nil => intro a; exact Or.inl rfl
  | cons x xs ih =>
      intro a
      rw [List.foldl_cons]
      rcases ih (max a x) with h | h
      · rcases max_cases a x with ⟨he, _⟩ | ⟨he, _⟩
        · exact Or.inl (h.trans he)
        · exact Or.inr (by rw [h, he]; exact List.mem_cons_self _ _)
      · exact Or.inr (List.mem_cons_of_mem _ h)

theorem foldl_max_le {α : Type} [LinearOrder α] :
    ∀ (l : List α) (a : α), a ≤ l.foldl max a ∧ ∀ x ∈ l, x ≤ l.foldl max a := by
  intro l
  induction l with
  | nil => intro a; exact ⟨le_refl a, by intro x hx; cases hx⟩
  | cons z zs ih =>
      intro a
      rw [List.foldl_cons]
      refine ⟨(le_max_left a z).trans (ih (max a z)).1, ?_⟩
      intro x hx
      rcases List.mem_cons.mp hx with h | h
      · exact h ▸ (le_max_right a z).trans (ih (max a z)).1
      · exact (ih (max a z)).2 x h

theorem foldl_and_eq (p : FilterObj → Bool) :
    ∀ (l : List FilterObj) (b : Bool),
      l.foldl (fun x f => x && p f) b = (b && l.all p) := by
  intro l
  induction l with
  | nil => intro b; simp
  | cons f fs ih => intro b; rw [List.foldl_cons, ih, List.all_cons, Bool.and_assoc]

theorem foldl_or_eq (p : FilterObj → Bool) :
    ∀ (l : List FilterObj) (b : Bool),
      l.foldl (fun x f => x || p f) b = (b || l.any p) := by
  intro l
  induction l with
  | nil => intro b; simp
  | cons f fs ih => intro b; rw [List.foldl_cons, ih, List.any_cons, Bool.or_assoc]

theorem foldl_add_eq :
    ∀ (l : List FilterObj) (a : ℚ),
      l.foldl (fun p f => p + f.padding) a = a + (l.map FilterObj.padding).sum := by
  intro l
  induction l with
  | nil => intro a; simp
  | cons f fs ih =>
      intro a
      rw [List.foldl_cons, ih, List.map_cons, List.sum_cons, add_assoc]

/-- The chain aggregate `legacy` is the disjunction of the per-filter
legacy flags (undeclared counts as legacy). -/
theorem aggregate_legacy_any (u : Bool) (cur : ℚ) (cms : ℕ) (f0 : FilterObj)
    (rest : List FilterObj) :
    (aggregate u cur cms f0 rest).legacy
      = (f0 :: rest).any (fun f => f.legacy.getD true) := by
  rw [aggregate, aggFold_legacy, foldl_or_eq, List.any_cons]
  rfl

/-- The chain aggregate `autoFit` is the conjunction of the per-filter
flags. -/
theorem aggregate_autoFit_all (u : Bool) (cur : ℚ) (cms : ℕ) (f0 : FilterObj)
    (rest : List FilterObj) :
    (aggregate u cur cms f0 rest).autoFit = (f0 :: rest).all FilterObj.autoFit := by
  rw [aggregate, aggFold_autoFit, foldl_and_eq, List.all_cons]
  rfl

theorem aggregate_resolution_foldl (u : Bool) (cur : ℚ) (cms : ℕ) (f0 : FilterObj)
    (rest : List FilterObj) :
    (aggregate u cur cms f0 rest).resolution
      = (rest.map (resolveRes cur)).foldl min (resolveRes cur f0) := by
  rw [aggregate, aggFold_resolution, List.foldl_map]
  rfl

theorem aggregate_multisample_foldl (u : Bool) (cur : ℚ) (cms : ℕ) (f0 : FilterObj)
    (rest : List FilterObj) :
    (aggregate u cur cms f0 rest).multisample
      = (rest.map (resolveMs cms)).foldl min (resolveMs cms f0) := by
  rw [aggregate, aggFold_multisample, List.foldl_map]
  rfl

theorem uget_uset_self : ∀ (u : List (String × UVal)) (k : String) (v : UVal),
    uget (uset u k v) k = some v := by
  intro u k v
  induction u with
  | nil => simp [uset, uget]
  | cons e rest ih =>
      rcases e with ⟨k', v'⟩
      by_cases h : k' = k
      · simp [uset, h, uget]
      · simp only [uset, if_neg h, uget, List.find?] at ih ⊢
        rw [show (decide (k' = k)) = false from decide_eq_false h]
        exact ih

/-! ### Characterization of `prepareBackdrop` -/

theorem prepareBackdropGo_flip (env : Env) (bounds : Rect) (res : ℚ) (fl : ℚ × ℚ) (st : W) :
    (prepareBackdropGo env bounds res fl st).2.1
      = if fl.2 < 0 then
          ((jround (bounds.height * res) : ℚ)
            / (env.poolDims (jround (bounds.width * res) : ℚ)
                (jround (bounds.height * res) : ℚ)).2, fl.2)
        else (0, fl.2) := rfl

theorem prepareBackdropGo_tex (env : Env) (bounds : Rect) (res : ℚ) (fl : ℚ × ℚ) (st : W) :
    ∀ t, (prepareBackdropGo env bounds res fl st).1 = some t →
      t.height = (env.poolDims (jround (bounds.width * res) : ℚ)
          (jround (bounds.height * res) : ℚ)).2
        ∧ t.resolution = res := by
  intro t ht
  have h2 : t = { (getOptimalFilterTexture env (jround (bounds.width * res) : ℚ)
      (jround (bounds.height * res) : ℚ) 1 0 st).1 with
        filterFrame := some env.sourceFrame, resolution := res } :=
    (Option.some.injEq _ _ ▸ ht).symm
  rw [h2]
  exact ⟨rfl, rfl⟩

/-- Full evaluation of the capture tail on explicit components. -/
theorem prepareBackdropGo_eq (env : Env) (b : Rect) (res : ℚ) (fl : ℚ × ℚ) (st : W) :
    prepareBackdropGo env b res fl st
      = (some ⟨st.nextTex,
          (env.poolDims ((jround (b.width * res) : ℤ) : ℚ)
            ((jround (b.height * res) : ℤ) : ℚ)).1,
          (env.poolDims ((jround (b.width * res) : ℤ) : ℚ)
            ((jround (b.height * res) : ℤ) : ℚ)).2,
          res, 0, some env.sourceFrame⟩,
         (if fl.2 < 0 then
            ((jround (b.height * res) : ℤ) : ℚ)
              / (env.poolDims ((jround (b.width * res) : ℤ) : ℚ)
                  ((jround (b.height * res) : ℤ) : ℚ)).2
          else 0, fl.2),
         { st with
           nextTex := st.nextTex + 1,
           trace := st.trace ++ [Ev.acquire st.nextTex,
             Ev.copyPixels
               (jround ((b.x - env.sourceFrame.x
                 + (env.projTransform.getD Mat.identity).tx) * res))
               (jround ((if fl.2 < 0 then
                   env.sourceFrame.height - ((b.y - env.sourceFrame.y
                     + (env.projTransform.getD Mat.identity).ty) + b.height)
                 else (b.y - env.sourceFrame.y
                   + (env.projTransform.getD Mat.identity).ty)) * res))
               (jround (b.width * res)) (jround (b.height * res))] }) := by
  by_cases hs : fl.2 < 0
  · simp only [prepareBackdropGo, getOptimalFilterTexture, if_pos hs]
    simp
  · simp only [prepareBackdropGo, getOptimalFilterTexture, if_neg hs]
    simp

/-- The three top-level branches of `prepareBackdrop`. -/
theorem prepareBackdrop_cases (env : Env) (bounds : Rect) (fl0 : ℚ × ℚ) (w0 : W) :
    (env.current = none ∧ 1 ≤ env.backgroundAlpha
      ∧ (prepareBackdrop env bounds fl0 w0).1 = none)
    ∨ (∃ tgt, env.current = some tgt
        ∧ prepareBackdrop env bounds fl0 w0
          = prepareBackdropGo env bounds tgt.resolution (fl0.1, 1)
              { w0 with trace := w0.trace ++ [Ev.prepareB] })
    ∨ (env.current = none ∧ env.backgroundAlpha < 1
        ∧ prepareBackdrop env bounds fl0 w0
          = prepareBackdropGo env bounds env.rendererResolution (fl0.1, -1)
              { w0 with trace := w0.trace ++ [Ev.prepareB] }) := by
  rcases hcur : env.current with _ | tgt
  · by_cases halpha : 1 ≤ env.backgroundAlpha
    · refine Or.inl ⟨rfl, halpha, ?_⟩
      rw [prepareBackdrop, hcur]
      by_cases hflag : w0.hadBackbufferError = true <;>
        simp [if_pos halpha, hflag]
    · refine Or.inr (Or.inr ⟨rfl, lt_of_not_le halpha, ?_⟩)
      rw [prepareBackdrop, hcur]
      simp [if_neg halpha]
  · refine Or.inr (Or.inl ⟨tgt, rfl, ?_⟩)
    rw [prepareBackdrop, hcur]

/-- When neither a render texture is bound nor the background is
transparent, `prepareBackdrop` fails: no acquisition, no copy, flip
untouched, the error flag set, and a warning exactly when the flag was
clear. -/
theorem prepareBackdrop_fail (env : Env) (b : Rect) (fl : ℚ × ℚ) (st : W)
    (hnb : backdropObtainable env = false) :
    prepareBackdrop env b fl st
      = (none, fl, { st with
          hadBackbufferError := true,
          trace := st.trace ++ [Ev.prepareB]
            ++ (if st.hadBackbufferError then [] else [Ev.warn]) }) := by
  have hcur : env.current = none := by
    rcases h : env.current with _ | t
    · rfl
    · rw [backdropObtainable, h] at hnb
      simp at hnb
  have halpha : 1 ≤ env.backgroundAlpha := by
    rw [backdropObtainable, hcur] at hnb
    simp at hnb
    exact hnb
  rw [prepareBackdrop, hcur]
  by_cases hflag : st.hadBackbufferError = true
  · simp only [if_pos halpha, hflag, if_true, ite_true]
    simp [hflag]
  · have hflag' : st.hadBackbufferError = false := by
      revert hflag
      cases st.hadBackbufferError <;> simp
    simp only [if_pos halpha, hflag']
    simp [hflag']

/-- When a render texture is bound or the background is transparent,
`prepareBackdrop` succeeds: exactly one pooled acquisition (the fresh id)
and one pixel copy, and the captured texture is retagged to the capture
source's resolution. -/
theorem prepareBackdrop_succ (env : Env) (b : Rect) (fl : ℚ × ℚ) (st : W)
    (hob : backdropObtainable env = true) :
    ∃ (t : Tex) (x y cw ch : ℤ),
      (prepareBackdrop env b fl st).1 = some t
      ∧ t.resolution = currentResolution env
      ∧ t.id = st.nextTex
      ∧ (prepareBackdrop env b fl st).2.2.trace
          = st.trace ++ [Ev.prepareB, Ev.acquire st.nextTex, Ev.copyPixels x y cw ch]
      ∧ (prepareBackdrop env b fl st).2.2.crashed = st.crashed
      ∧ (prepareBackdrop env b fl st).2.2.filterStack = st.filterStack
      ∧ (prepareBackdrop env b fl st).2.2.statePool = st.statePool
      ∧ (prepareBackdrop env b fl st).2.2.hadBackbufferError = st.hadBackbufferError
      ∧ (prepareBackdrop env b fl st).2.2.gu = st.gu := by
  rcases prepareBackdrop_cases env b fl st with ⟨hcur, halpha, _⟩ | ⟨tgt, hcur, heq⟩
    | ⟨hcur, halpha, heq⟩
  · rw [backdropObtainable, hcur] at hob
    simp at hob
    exact absurd halpha (not_le.mpr hob)
  · rw [heq, prepareBackdropGo_eq]
    refine ⟨⟨st.nextTex,
      (env.poolDims ((jround (b.width * tgt.resolution) : ℤ) : ℚ)
        ((jround (b.height * tgt.resolution) : ℤ) : ℚ)).1,
      (env.poolDims ((jround (b.width * tgt.resolution) : ℤ) : ℚ)
        ((jround (b.height * tgt.resolution) : ℤ) : ℚ)).2,
      tgt.resolution, 0, some env.sourceFrame⟩,
      jround ((b.x - env.sourceFrame.x + (env.projTransform.getD Mat.identity).tx)
        * tgt.resolution),
      jround ((if (((fl.1, (1 : ℚ)) : ℚ × ℚ).2 < 0) then
          env.sourceFrame.height - ((b.y - env.sourceFrame.y
            + (env.projTransform.getD Mat.identity).ty) + b.height)
        else (b.y - env.sourceFrame.y + (env.projTransform.getD Mat.identity).ty))
        * tgt.resolution),
      jround (b.width * tgt.resolution), jround (b.height * tgt.resolution),
      ?_, ?_, ?_, ?_, ?_, ?_, ?_, ?_, ?_⟩
    · rfl
    · simp [currentResolution, hcur]
    · rfl
    · simp
    · rfl
    · rfl
    · rfl
    · rfl
    · rfl
  · rw [heq, prepareBackdropGo_eq]
    refine ⟨⟨st.nextTex,
      (env.poolDims ((jround (b.width * env.rendererResolution) : ℤ) : ℚ)
        ((jround (b.height * env.rendererResolution) : ℤ) : ℚ)).1,
      (env.poolDims ((jround (b.width * env.rendererResolution) : ℤ) : ℚ)
        ((jround (b.height * env.rendererResolution) : ℤ) : ℚ)).2,
      env.rendererResolution, 0, some env.sourceFrame⟩,
      jround ((b.x - env.sourceFrame.x + (env.projTransform.getD Mat.identity).tx)
        * env.rendererResolution),
      jround ((if (((fl.1, (-1 : ℚ)) : ℚ × ℚ).2 < 0) then
          env.sourceFrame.height - ((b.y - env.sourceFrame.y
            + (env.projTransform.getD Mat.identity).ty) + b.height)
        else (b.y - env.sourceFrame.y + (env.projTransform.getD Mat.identity).ty))
        * env.rendererResolution),
      jround (b.width * env.rendererResolution), jround (b.height * env.rendererResolution),
      ?_, ?_, ?_, ?_, ?_, ?_, ?_, ?_, ?_⟩
    · rfl
    · simp [currentResolution, hcur]
    · rfl
    · simp
    · rfl
    · rfl
    · rfl
    · rfl
    · rfl

/-! ### The backdrop-detection loop, by environment case -/

theorem backdropLoop_fail (env : Env) (sf : Rect)
    (hnb : backdropObtainable env = false) :
    ∀ (fs : List FilterObj) (bf0 : Option (ℚ × ℚ)) (st : W),
      ∃ Δ,
        (backdropLoop env sf fs (none, bf0) st).2.2.trace = st.trace ++ Δ
        ∧ countAcq Δ = 0 ∧ countRel Δ = 0 ∧ applyEvents Δ = []
        ∧ Ev.legacyUniforms ∉ Δ
        ∧ (backdropLoop env sf fs (none, bf0) st).2.2.crashed = st.crashed
        ∧ (backdropLoop env sf fs (none, bf0) st).2.2.filterStack = st.filterStack
        ∧ (backdropLoop env sf fs (none, bf0) st).2.2.statePool = st.statePool
        ∧ (backdropLoop env sf fs (none, bf0) st).2.1.1 = none
        ∧ (backdropLoop env sf fs (none, bf0) st).1.map FilterObj.fstate
            = fs.map FilterObj.fstate
        ∧ (backdropLoop env sf fs (none, bf0) st).1.map FilterObj.trivial
            = fs.map FilterObj.trivial
        ∧ (backdropLoop env sf fs (none, bf0) st).1.map FilterObj.clearColor
            = fs.map FilterObj.clearColor
        ∧ (backdropLoop env sf fs (none, bf0) st).1.map FilterObj.backdropActive
            = fs.map FilterObj.backdropActive
        ∧ ∀ f ∈ (backdropLoop env sf fs (none, bf0) st).1,
            optStrTruthy f.backdropUniformName = true →
            ∃ bN, f.backdropUniformName = some bN
              ∧ uget f.uniforms bN = some (UVal.tex none) := by
  intro fs
  induction fs with
  | nil =>
      intro bf0 st
      exact ⟨[], by simp [backdropLoop], rfl, rfl, rfl, by simp, rfl, rfl, rfl, rfl,
        rfl, rfl, rfl, rfl, by simp [backdropLoop]⟩
  | cons f fs ih =>
      intro bf0 st
      by_cases hW : optStrTruthy f.backdropUniformName = true
      · rcases hbn : f.backdropUniformName with _ | s
        · rw [hbn] at hW
          simp [optStrTruthy] at hW
        have hWs : optStrTruthy (some s) = true := hbn ▸ hW
        have hpb := prepareBackdrop_fail env sf (readFlip (ensureFlip f s) s) st hnb
        have hunf : backdropLoop env sf (f :: fs) (none, bf0) st
            = ({ f with
                  uniforms := uset (uset (ensureFlip f s) (s ++ "_flipY")
                    (UVal.flipArr (readFlip (ensureFlip f s) s).1
                      (readFlip (ensureFlip f s) s).2)) s (UVal.tex none),
                  backdropActive := f.backdropActive }
                :: (backdropLoop env sf fs (none, some (readFlip (ensureFlip f s) s))
                    { st with
                      hadBackbufferError := true,
                      trace := st.trace ++ [Ev.prepareB]
                        ++ (if st.hadBackbufferError then [] else [Ev.warn]) }).1,
               (backdropLoop env sf fs (none, some (readFlip (ensureFlip f s) s))
                  { st with
                    hadBackbufferError := true,
                    trace := st.trace ++ [Ev.prepareB]
                      ++ (if st.hadBackbufferError then [] else [Ev.warn]) }).2) := by
          simp only [backdropLoop, hbn, hWs, if_true, Option.getD_some]
          rw [hpb]
          simp
        rcases ih (some (readFlip (ensureFlip f s) s))
          ({ st with
             hadBackbufferError := true,
             trace := st.trace ++ [Ev.prepareB]
               ++ (if st.hadBackbufferError then [] else [Ev.warn]) }) with
          ⟨Δ', h1, h2, h3, h4, h5, h6, h7, h8, h9, h10, h11, h12, h13, h14⟩
        refine ⟨[Ev.prepareB] ++ (if st.hadBackbufferError then [] else [Ev.warn]) ++ Δ',
          ?_, ?_, ?_, ?_, ?_, ?_, ?_, ?_, ?_, ?_, ?_, ?_, ?_, ?_⟩
        · rw [hunf]
          simp only
          rw [h1]
          simp
        · rw [countAcq_append, countAcq_append, h2]
          rcases st.hadBackbufferError <;> simp [countAcq]
        · rw [countRel_append, countRel_append, h3]
          rcases st.hadBackbufferError <;> simp [countRel]
        · rw [applyEvents_append, applyEvents_append, h4]
          rcases st.hadBackbufferError <;> simp [applyEvents]
        · intro hmem
          rcases List.mem_append.mp hmem with hmem2 | hmem2
          · rcases List.mem_append.mp hmem2 with hmem3 | hmem3
            · simp at hmem3
            · rcases st.hadBackbufferError <;> simp_all
          · exact h5 hmem2
        · rw [hunf]
          simp only
          rw [h6]
        · rw [hunf]
          simp only
          rw [h7]
        · rw [hunf]
          simp only
          rw [h8]
        · rw [hunf]
          simp only
          exact h9
        · rw [hunf]
          simp only [List.map_cons]
          rw [h10]
        · rw [hunf]
          simp only [List.map_cons]
          rw [h11]
        · rw [hunf]
          simp only [List.map_cons]
          rw [h12]
        · rw [hunf]
          simp only [List.map_cons]
          rw [h13]
        · rw [hunf]
          intro g hg hgt
          rcases List.mem_cons.mp hg with hgeq | hgmem
          · refine ⟨s, ?_, ?_⟩
            · rw [hgeq]
              exact hbn
            · rw [hgeq]
              exact uget_uset_self _ _ _
          · exact h14 g hgmem hgt
      · have hW' : optStrTruthy f.backdropUniformName = false := by
          revert hW
          cases optStrTruthy f.backdropUniformName <;> simp
        have hunf : backdropLoop env sf (f :: fs) (none, bf0) st
            = (f :: (backdropLoop env sf fs (none, bf0) st).1,
               (backdropLoop env sf fs (none, bf0) st).2) := by
          simp only [backdropLoop, hW', Bool.false_eq_true, if_false]
        rcases ih bf0 st with
          ⟨Δ', h1, h2, h3, h4, h5, h6, h7, h8, h9, h10, h11, h12, h13, h14⟩
        refine ⟨Δ', ?_, h2, h3, h4, h5, ?_, ?_, ?_, ?_, ?_, ?_, ?_, ?_, ?_⟩
        · rw [hunf]
          exact h1
        · rw [hunf]
          exact h6
        · rw [hunf]
          exact h7
        · rw [hunf]
          exact h8
        · rw [hunf]
          exact h9
        · rw [hunf]
          simp only [List.map_cons]
          rw [h10]
        · rw [hunf]
          simp only [List.map_cons]
          rw [h11]
        · rw [hunf]
          simp only [List.map_cons]
          rw [h12]
        · rw [hunf]
          simp only [List.map_cons]
          rw [h13]
        · rw [hunf]
          intro g hg hgt
          rcases List.mem_cons.mp hg with hgeq | hgmem
          · rw [hgeq] at hgt
            rw [hgt] at hW'
            cases hW'
          · exact h14 g hgmem hgt

theorem backdropLoop_some (env : Env) (sf : Rect) (bb : Tex) (bf : ℚ × ℚ) :
    ∀ (fs : List FilterObj) (st : W),
      (backdropLoop env sf fs (some bb, some bf) st).2.2 = st
      ∧ (backdropLoop env sf fs (some bb, some bf) st).2.1 = (some bb, some bf)
      ∧ (backdropLoop env sf fs (some bb, some bf) st).1.map FilterObj.fstate
          = fs.map FilterObj.fstate
      ∧ (backdropLoop env sf fs (some bb, some bf) st).1.map FilterObj.trivial
          = fs.map FilterObj.trivial
      ∧ (backdropLoop env sf fs (some bb, some bf) st).1.map FilterObj.clearColor
          = fs.map FilterObj.clearColor
      ∧ ((∀ f ∈ fs, f.backdropActive = false) →
          ∀ f ∈ (backdropLoop env sf fs (some bb, some bf) st).1,
            f.backdropActive = true →
            ∃ bN, f.backdropUniformName = some bN
              ∧ uget f.uniforms bN = some (UVal.tex (some bb.id))) := by
  intro fs
  induction fs with
  | nil =>
      intro st
      exact ⟨rfl, rfl, rfl, rfl, rfl, by simp [backdropLoop]⟩
  | cons f fs ih =>
      intro st
      by_cases hW : optStrTruthy f.backdropUniformName = true
      · rcases hbn : f.backdropUniformName with _ | s
        · rw [hbn] at hW
          simp [optStrTruthy] at hW
        have hWs : optStrTruthy (some s) = true := hbn ▸ hW
        have hunf : backdropLoop env sf (f :: fs) (some bb, some bf) st
            = ({ f with
                  uniforms := uset (uset (ensureFlip f s) (s ++ "_flipY")
                    (UVal.flipArr bf.1 bf.2)) s (UVal.tex (some bb.id)),
                  backdropActive := true }
                :: (backdropLoop env sf fs (some bb, some bf) st).1,
               (backdropLoop env sf fs (some bb, some bf) st).2) := by
          simp only [backdropLoop, hbn, hWs, if_true, Option.getD_some]
        rcases ih st with ⟨h1, h2, h3, h4, h5, h6⟩
        refine ⟨?_, ?_, ?_, ?_, ?_, ?_⟩
        · rw [hunf]
          exact h1
        · rw [hunf]
          exact h2
        · rw [hunf]
          simp only [List.map_cons]
          rw [h3]
        · rw [hunf]
          simp only [List.map_cons]
          rw [h4]
        · rw [hunf]
          simp only [List.map_cons]
          rw [h5]
        · rw [hunf]
          intro hclean g hg hga
          rcases List.mem_cons.mp hg with hgeq | hgmem
          · refine ⟨s, ?_, ?_⟩
            · rw [hgeq]
              exact hbn
            · rw [hgeq]
              exact uget_uset_self _ _ _
          · exact h6 (fun x hx => hclean x (List.mem_cons_of_mem _ hx)) g hgmem hga
      · have hW' : optStrTruthy f.backdropUniformName = false := by
          revert hW
          cases optStrTruthy f.backdropUniformName <;> simp
        have hunf : backdropLoop env sf (f :: fs) (some bb, some bf) st
            = (f :: (backdropLoop env sf fs (some bb, some bf) st).1,
               (backdropLoop env sf fs (some bb, some bf) st).2) := by
          simp only [backdropLoop, hW', Bool.false_eq_true, if_false]
        rcases ih st with ⟨h1, h2, h3, h4, h5, h6⟩
        refine ⟨?_, ?_, ?_, ?_, ?_, ?_⟩
        · rw [hunf]
          exact h1
        · rw [hunf]
          exact h2
        · rw [hunf]
          simp only [List.map_cons]
          rw [h3]
        · rw [hunf]
          simp only [List.map_cons]
          rw [h4]
        · rw [hunf]
          simp only [List.map_cons]
          rw [h5]
        · rw [hunf]
          intro hclean g hg hga
          rcases List.mem_cons.mp hg with hgeq | hgmem
          · rw [hgeq] at hga
            rw [hclean f (List.mem_cons_self _ _)] at hga
            cases hga
          · exact h6 (fun x hx => hclean x (List.mem_cons_of_mem _ hx)) g hgmem hga

theorem backdropLoop_obtain (env : Env) (sf : Rect)
    (hob : backdropObtainable env = true) :
    ∀ (fs : List FilterObj) (bf0 : Option (ℚ × ℚ)) (st : W),
      ∃ Δ,
        (backdropLoop env sf fs (none, bf0) st).2.2.trace = st.trace ++ Δ
        ∧ countAcq Δ = (if fs.any (fun f => optStrTruthy f.backdropUniformName)
            then 1 else 0)
        ∧ countRel Δ = 0 ∧ applyEvents Δ = []
        ∧ Ev.legacyUniforms ∉ Δ
        ∧ (backdropLoop env sf fs (none, bf0) st).2.2.crashed = st.crashed
        ∧ (backdropLoop env sf fs (none, bf0) st).2.2.filterStack = st.filterStack
        ∧ (backdropLoop env sf fs (none, bf0) st).2.2.statePool = st.statePool
        ∧ (backdropLoop env sf fs (none, bf0) st).1.map FilterObj.fstate
            = fs.map FilterObj.fstate
        ∧ (backdropLoop env sf fs (none, bf0) st).1.map FilterObj.trivial
            = fs.map FilterObj.trivial
        ∧ (backdropLoop env sf fs (none, bf0) st).1.map FilterObj.clearColor
            = fs.map FilterObj.clearColor
        ∧ (fs.any (fun f => optStrTruthy f.backdropUniformName) = false →
            (backdropLoop env sf fs (none, bf0) st).2.1.1 = none
            ∧ (backdropLoop env sf fs (none, bf0) st).1 = fs
            ∧ (backdropLoop env sf fs (none, bf0) st).2.2 = st)
        ∧ (fs.any (fun f => optStrTruthy f.backdropUniformName) = true →
            ∃ bt, (backdropLoop env sf fs (none, bf0) st).2.1.1 = some bt
              ∧ bt.resolution = currentResolution env
              ∧ (∃ f ∈ (backdropLoop env sf fs (none, bf0) st).1,
                  f.backdropActive = true)
              ∧ ((∀ f ∈ fs, f.backdropActive = false) →
                  ∀ f ∈ (backdropLoop env sf fs (none, bf0) st).1,
                    f.backdropActive = true →
                    ∃ bN, f.backdropUniformName = some bN
                      ∧ uget f.uniforms bN = some (UVal.tex (some bt.id)))) := by
  intro fs
  induction fs with
  | nil =>
      intro bf0 st
      refine ⟨[], by simp [backdropLoop], by simp [countAcq], rfl, rfl, by simp,
        rfl, rfl, rfl, rfl, rfl, rfl, ?_, ?_⟩
      · intro _
        exact ⟨rfl, rfl, rfl⟩
      · intro habs
        simp at habs
  | cons f fs ih =>
      intro bf0 st
      by_cases hW : optStrTruthy f.backdropUniformName = true
      · rcases hbn : f.backdropUniformName with _ | s
        · rw [hbn] at hW
          simp [optStrTruthy] at hW
        have hWs : optStrTruthy (some s) = true := hbn ▸ hW
        rcases prepareBackdrop_succ env sf (readFlip (ensureFlip f s) s) st hob with
          ⟨t, x, y, cw, ch, hsome, hres, hid, htr, hcr, hfs, hsp, hhb, hgu⟩
        have hunf : backdropLoop env sf (f :: fs) (none, bf0) st
            = ({ f with
                  uniforms := uset (uset (ensureFlip f s) (s ++ "_flipY")
                    (UVal.flipArr
                      (prepareBackdrop env sf (readFlip (ensureFlip f s) s) st).2.1.1
                      (prepareBackdrop env sf (readFlip (ensureFlip f s) s) st).2.1.2))
                    s (UVal.tex (some t.id)),
                  backdropActive := true }
                :: (backdropLoop env sf fs
                    (some t,
                     some (prepareBackdrop env sf (readFlip (ensureFlip f s) s) st).2.1)
                    (prepareBackdrop env sf (readFlip (ensureFlip f s) s) st).2.2).1,
               (backdropLoop env sf fs
                  (some t,
                   some (prepareBackdrop env sf (readFlip (ensureFlip f s) s) st).2.1)
                  (prepareBackdrop env sf (readFlip (ensureFlip f s) s) st).2.2).2) := by
          simp only [backdropLoop, hbn, hWs, if_true, Option.getD_some]
          rw [hsome]
          simp
        rcases backdropLoop_some env sf t
          (prepareBackdrop env sf (readFlip (ensureFlip f s) s) st).2.1 fs
          (prepareBackdrop env sf (readFlip (ensureFlip f s) s) st).2.2 with
          ⟨k1, k2, k3, k4, k5, k6⟩
        have hany : (f :: fs).any (fun g => optStrTruthy g.backdropUniformName) = true := by
          simp [List.any_cons, hW]
        refine ⟨[Ev.prepareB, Ev.acquire st.nextTex, Ev.copyPixels x y cw ch],
          ?_, ?_, ?_, ?_, ?_, ?_, ?_, ?_, ?_, ?_, ?_, ?_, ?_⟩
        · rw [hunf]
          simp only
          rw [k1, htr]
        · rw [hany]
          simp [countAcq]
        · simp [countRel]
        · simp [applyEvents]
        · simp
        · rw [hunf]
          simp only
          rw [k1, hcr]
        · rw [hunf]
          simp only
          rw [k1, hfs]
        · rw [hunf]
          simp only
          rw [k1, hsp]
        · rw [hunf]
          simp only [List.map_cons]
          rw [k3]
        · rw [hunf]
          simp only [List.map_cons]
          rw [k4]
        · rw [hunf]
          simp only [List.map_cons]
          rw [k5]
        · intro habs
          rw [hany] at habs
          cases habs
        · intro _
          refine ⟨t, ?_, hres, ?_, ?_⟩
          · rw [hunf]
            simp only
            rw [k2]
          · rw [hunf]
            exact ⟨_, List.mem_cons_self _ _, rfl⟩
          · intro hclean g hg hga
            rw [hunf] at hg
            rcases List.mem_cons.mp hg with hgeq | hgmem
            · refine ⟨s, ?_, ?_⟩
              · rw [hgeq]
                exact hbn
              · rw [hgeq]
                exact uget_uset_self _ _ _
            · exact k6 (fun z hz => hclean z (List.mem_cons_of_mem _ hz)) g hgmem hga
      · have hW' : optStrTruthy f.backdropUniformName = false := by
          revert hW
          cases optStrTruthy f.backdropUniformName <;> simp
        have hunf : backdropLoop env sf (f :: fs) (none, bf0) st
            = (f :: (backdropLoop env sf fs (none, bf0) st).1,
               (backdropLoop env sf fs (none, bf0) st).2) := by
          simp only [backdropLoop, hW', Bool.false_eq_true, if_false]
        have hany : (f :: fs).any (fun g => optStrTruthy g.backdropUniformName)
            = fs.any (fun g => optStrTruthy g.backdropUniformName) := by
          simp [List.any_cons, hW']
        rcases ih bf0 st with
          ⟨Δ', h1, h2, h3, h4, h5, h6, h7, h8, h9, h10, h11, h12, h13⟩
        refine ⟨Δ', ?_, ?_, h3, h4, h5, ?_, ?_, ?_, ?_, ?_, ?_, ?_, ?_⟩
        · rw [hunf]
          exact h1
        · rw [hany]
          exact h2
        · rw [hunf]
          exact h6
        · rw [hunf]
          exact h7
        · rw [hunf]
          exact h8
        · rw [hunf]
          simp only [List.map_cons]
          rw [h9]
        · rw [hunf]
          simp only [List.map_cons]
          rw [h10]
        · rw [hunf]
          simp only [List.map_cons]
          rw [h11]
        · intro hno
          rw [hany] at hno
          rcases h12 hno with ⟨j1, j2, j3⟩
          rw [hunf]
          exact ⟨j1, by rw [j2], j3⟩
        · intro hyes
          rw [hany] at hyes
          rcases h13 hyes with ⟨bt, j1, j2, j3, j4⟩
          refine ⟨bt, ?_, j2, ?_, ?_⟩
          · rw [hunf]
            exact j1
          · rw [hunf]
            rcases j3 with ⟨g, hgm, hga⟩
            exact ⟨g, List.mem_cons_of_mem _ hgm, hga⟩
          · intro hclean g hg hga
            rw [hunf] at hg
            rcases List.mem_cons.mp hg with hgeq | hgmem
            · rw [hgeq] at hga
              rw [hclean f (List.mem_cons_self _ _)] at hga
              cases hga
            · exact j4 (fun z hz => hclean z (List.mem_cons_of_mem _ hz)) g hgmem hga

/-- Whether opening a region with chain `fs`, backdrop eligibility `canB`
and environment `env` captures a backdrop: the eligibility flag holds, the
source is readable, and some filter declares a (truthy) backdrop uniform
name. -/
def backdropCaptured (env : Env) (canB : Bool) (fs : List FilterObj) : Bool :=
  canB && backdropObtainable env
    && fs.any (fun f => optStrTruthy f.backdropUniformName)

theorem pushOpen_spec (env : Env) (f0 : FilterObj) (rest : List FilterObj)
    (state1 : FState) (stack0 pool0 : List FState) (sf : Rect) (canB : Bool)
    (agg : Agg) (st : W) :
    (pushOpen env f0 rest state1 stack0 pool0 sf canB agg st).ok = true
    ∧ (pushOpen env f0 rest state1 stack0 pool0 sf canB agg st).world.statePool = pool0
    ∧ (pushOpen env f0 rest state1 stack0 pool0 sf canB agg st).world.crashed = st.crashed
    ∧ (pushOpen env f0 rest state1 stack0 pool0 sf canB agg st).world.filterStack
        = ((pushOpen env f0 rest state1 stack0 pool0 sf canB agg st).world.filterStack.headD
            FState.new) :: stack0
    ∧ ((pushOpen env f0 rest state1 stack0 pool0 sf canB agg st).world.filterStack.headD
        FState.new).renderTexture.isSome = true
    ∧ (((pushOpen env f0 rest state1 stack0 pool0 sf canB agg st).world.filterStack.headD
        FState.new).renderTexture.getD default).multisample = agg.multisample
    ∧ ((pushOpen env f0 rest state1 stack0 pool0 sf canB agg st).world.filterStack.headD
        FState.new).filters
        = (pushOpen env f0 rest state1 stack0 pool0 sf canB agg st).filters
    ∧ ((pushOpen env f0 rest state1 stack0 pool0 sf canB agg st).world.filterStack.headD
        FState.new).legacy = state1.legacy
    ∧ ((pushOpen env f0 rest state1 stack0 pool0 sf canB agg st).world.filterStack.headD
        FState.new).sourceFrame = state1.sourceFrame
    ∧ ((pushOpen env f0 rest state1 stack0 pool0 sf canB agg st).world.filterStack.headD
        FState.new).multisample = state1.multisample
    ∧ ((pushOpen env f0 rest state1 stack0 pool0 sf canB agg st).world.filterStack.headD
        FState.new).resolution
        = (if backdropCaptured env canB (f0 :: rest) then currentResolution env
           else agg.resolution)
    ∧ (pushOpen env f0 rest state1 stack0 pool0 sf canB agg st).filters.map
        FilterObj.fstate = (f0 :: rest).map FilterObj.fstate
    ∧ (pushOpen env f0 rest state1 stack0 pool0 sf canB agg st).filters.map
        FilterObj.trivial = (f0 :: rest).map FilterObj.trivial
    ∧ countAcq (pushOpen env f0 rest state1 stack0 pool0 sf canB agg st).world.trace
        = countAcq st.trace + 1
          + (if backdropCaptured env canB (f0 :: rest) then 1 else 0)
    ∧ countRel (pushOpen env f0 rest state1 stack0 pool0 sf canB agg st).world.trace
        = countRel st.trace
    ∧ applyEvents (pushOpen env f0 rest state1 stack0 pool0 sf canB agg st).world.trace
        = applyEvents st.trace
    ∧ (Ev.legacyUniforms ∈ (pushOpen env f0 rest state1 stack0 pool0 sf canB agg
          st).world.trace ↔ Ev.legacyUniforms ∈ st.trace)
    ∧ (canB = false →
        (Ev.prepareB ∈ (pushOpen env f0 rest state1 stack0 pool0 sf canB agg
            st).world.trace ↔ Ev.prepareB ∈ st.trace)
        ∧ (pushOpen env f0 rest state1 stack0 pool0 sf canB agg st).filters = f0 :: rest)
    ∧ ((∀ f ∈ f0 :: rest, f.backdropActive = false) →
        ((∃ f ∈ (pushOpen env f0 rest state1 stack0 pool0 sf canB agg st).filters,
            f.backdropActive = true)
          ↔ backdropCaptured env canB (f0 :: rest) = true)
        ∧ (∀ f ∈ (pushOpen env f0 rest state1 stack0 pool0 sf canB agg st).filters,
            f.backdropActive = true →
            ∃ bN tid, f.backdropUniformName = some bN
              ∧ uget f.uniforms bN = some (UVal.tex (some tid))))
    ∧ (canB = true → backdropObtainable env = false →
        ∀ f ∈ (pushOpen env f0 rest state1 stack0 pool0 sf canB agg st).filters,
          optStrTruthy f.backdropUniformName = true →
          ∃ bN, f.backdropUniformName = some bN
            ∧ uget f.uniforms bN = some (UVal.tex none)) := by
  by_cases hcb : canB = true
  · subst hcb
    by_cases hob : backdropObtainable env = true
    · by_cases hany : (f0 :: rest).any (fun f => optStrTruthy f.backdropUniformName) = true
      · -- backdrop captured
        have hcap : backdropCaptured env true (f0 :: rest) = true := by
          simp [backdropCaptured, hob, hany]
        rcases backdropLoop_obtain env sf hob (f0 :: rest) none st with
          ⟨Δ', h1, h2, h3, h4, h5, h6, h7, h8, h9, h10, h11, _, h13⟩
        rcases h13 hany with ⟨bt, j1, j2, j3, j4⟩
        rcases hcc : ((f0 :: rest).getLastD f0).clearColor with _ | c <;>
          · simp only [pushOpen, hcc, eq_self_iff_true, if_true, j1]
            refine ⟨?_, ?_, ?_, ?_, ?_, ?_, ?_, ?_, ?_, ?_, ?_, ?_, ?_, ?_, ?_, ?_,
              ?_, ?_, ?_, ?_⟩
            · first | trivial | rfl | simp
            · first | trivial | rfl | simp
            · simp [getOptimalFilterTexture, h6]
            · first | trivial | rfl | simp
            · first | trivial | rfl | simp
            · simp [getOptimalFilterTexture]
            · first | trivial | rfl | simp
            · first | trivial | rfl | simp
            · first | trivial | rfl | simp
            · first | trivial | rfl | simp
            · rw [hcap]
              simp [j2]
            · exact h9
            · exact h10
            · rw [hcap]
              simp only [getOptimalFilterTexture]
              simp only [h1]
              simp [countAcq_append, h2, hany, countAcq]
            · simp only [getOptimalFilterTexture]
              simp only [h1]
              simp [countRel_append, h3, countRel]
            · simp only [getOptimalFilterTexture]
              simp only [h1]
              simp [applyEvents_append, h4, applyEvents]
            · simp only [getOptimalFilterTexture]
              simp only [h1]
              constructor
              · intro hmem
                simp only [List.mem_append] at hmem
                rcases hmem with ((hh | hh) | hh) | hh
                · exact hh
                · exact absurd hh h5
                · simp at hh
                · simp at hh
              · intro hmem
                simp [List.mem_append, hmem]
            · intro hfalse
              simp at hfalse
            · intro hclean
              constructor
              · constructor
                · intro _
                  exact hcap
                · intro _
                  exact j3
              · intro f hf hfa
                rcases j4 hclean f hf hfa with ⟨bN, hb1, hb2⟩
                exact ⟨bN, bt.id, hb1, hb2⟩
            · intro _ hobf
              rw [hobf] at hob
              exact Bool.noConfusion hob
      · -- eligible but no filter wants a backdrop
        have hany' : (f0 :: rest).any (fun f => optStrTruthy f.backdropUniformName)
            = false := by
          revert hany
          cases (f0 :: rest).any (fun f => optStrTruthy f.backdropUniformName) <;> simp
        have hcap : backdropCaptured env true (f0 :: rest) = false := by
          simp [backdropCaptured, hany']
        rcases backdropLoop_obtain env sf hob (f0 :: rest) none st with
          ⟨Δ', h1, h2, h3, h4, h5, h6, h7, h8, h9, h10, h11, h12, _⟩
        rcases h12 hany' with ⟨j1, j2, j3⟩
        rcases hcc : ((f0 :: rest).getLastD f0).clearColor with _ | c <;>
          · simp only [pushOpen, hcc, eq_self_iff_true, if_true, j1, j2, j3]
            refine ⟨?_, ?_, ?_, ?_, ?_, ?_, ?_, ?_, ?_, ?_, ?_, ?_, ?_, ?_, ?_, ?_,
              ?_, ?_, ?_, ?_⟩
            · first | trivial | rfl | simp
            · first | trivial | rfl | simp
            · simp [getOptimalFilterTexture]
            · first | trivial | rfl | simp
            · first | trivial | rfl | simp
            · simp [getOptimalFilterTexture]
            · first | trivial | rfl | simp
            · first | trivial | rfl | simp
            · first | trivial | rfl | simp
            · first | trivial | rfl | simp
            · rw [hcap]
              simp
            · first | trivial | rfl | simp
            · first | trivial | rfl | simp
            · rw [hcap]
              simp [getOptimalFilterTexture, countAcq_append, countAcq]
            · simp [getOptimalFilterTexture, countRel_append, countRel]
            · simp [getOptimalFilterTexture, applyEvents_append, applyEvents]
            · simp [getOptimalFilterTexture, List.mem_append]
            · intro hfalse
              simp at hfalse
            · intro hclean
              refine ⟨⟨?_, ?_⟩, ?_⟩
              · intro ⟨f, hf, hfa⟩
                rw [hclean f hf] at hfa
                exact Bool.noConfusion hfa
              · intro habs
                rw [hcap] at habs
                exact Bool.noConfusion habs
              · intro f hf hfa
                rw [hclean f hf] at hfa
                exact Bool.noConfusion hfa
            · intro _ hobf
              rw [hobf] at hob
              exact Bool.noConfusion hob
    · -- eligible but unreadable source: every capture attempt fails
      have hob' : backdropObtainable env = false := by
        revert hob
        cases backdropObtainable env <;> simp
      have hcap : backdropCaptured env true (f0 :: rest) = false := by
        simp [backdropCaptured, hob']
      rcases backdropLoop_fail env sf hob' (f0 :: rest) none st with
        ⟨Δ', h1, h2, h3, h4, h5, h6, h7, h8, h9, h10, h11, h12, h13, h14⟩
      have hact : ∀ f ∈ (backdropLoop env sf (f0 :: rest) (none, none) st).1,
          (∀ g ∈ f0 :: rest, g.backdropActive = false) → f.backdropActive = false := by
        intro f hf hclean
        have hmem : f.backdropActive
            ∈ (backdropLoop env sf (f0 :: rest) (none, none) st).1.map
              FilterObj.backdropActive :=
          List.mem_map_of_mem _ hf
        rw [h13] at hmem
        rcases List.mem_map.mp hmem with ⟨g, hg, hga⟩
        rw [← hga]
        exact hclean g hg
      rcases hcc : ((f0 :: rest).getLastD f0).clearColor with _ | c <;>
        · simp only [pushOpen, hcc, eq_self_iff_true, if_true, h9]
          refine ⟨?_, ?_, ?_, ?_, ?_, ?_, ?_, ?_, ?_, ?_, ?_, ?_, ?_, ?_, ?_, ?_,
            ?_, ?_, ?_, ?_⟩
          · first | trivial | rfl | simp
          · first | trivial | rfl | simp
          · simp [getOptimalFilterTexture, h6]
          · first | trivial | rfl | simp
          · first | trivial | rfl | simp
          · simp [getOptimalFilterTexture]
          · first | trivial | rfl | simp
          · first | trivial | rfl | simp
          · first | trivial | rfl | simp
          · first | trivial | rfl | simp
          · rw [hcap]
            simp
          · exact h10
          · exact h11
          · rw [hcap]
            simp only [getOptimalFilterTexture]
            simp only [h1]
            simp [countAcq_append, h2, countAcq]
          · simp only [getOptimalFilterTexture]
            simp only [h1]
            simp [countRel_append, h3, countRel]
          · simp only [getOptimalFilterTexture]
            simp only [h1]
            simp [applyEvents_append, h4, applyEvents]
          · simp only [getOptimalFilterTexture]
            simp only [h1]
            constructor
            · intro hmem
              simp only [List.mem_append] at hmem
              rcases hmem with ((hh | hh) | hh) | hh
              · exact hh
              · exact absurd hh h5
              · simp at hh
              · simp at hh
            · intro hmem
              simp [List.mem_append, hmem]
          · intro hfalse
            simp at hfalse
          · intro hclean
            refine ⟨⟨?_, ?_⟩, ?_⟩
            · intro ⟨f, hf, hfa⟩
              rw [hact f hf hclean] at hfa
              exact Bool.noConfusion hfa
            · intro habs
              rw [hcap] at habs
              exact Bool.noConfusion habs
            · intro f hf hfa
              rw [hact f hf hclean] at hfa
              exact Bool.noConfusion hfa
          · intro _ _
            exact h14
  · -- not eligible: the detection loop is skipped entirely
    have hcb' : canB = false := by
      revert hcb
      cases canB <;> simp
    subst hcb'
    have hcap : backdropCaptured env false (f0 :: rest) = false := by
      simp [backdropCaptured]
    rcases hcc : ((f0 :: rest).getLastD f0).clearColor with _ | c <;>
      · simp only [pushOpen, Bool.false_eq_true, if_false, hcc]
        refine ⟨?_, ?_, ?_, ?_, ?_, ?_, ?_, ?_, ?_, ?_, ?_, ?_, ?_, ?_, ?_, ?_,
          ?_, ?_, ?_, ?_⟩
        · first | trivial | rfl | simp
        · first | trivial | rfl | simp
        · simp [getOptimalFilterTexture]
        · first | trivial | rfl | simp
        · first | trivial | rfl | simp
        · simp [getOptimalFilterTexture]
        · first | trivial | rfl | simp
        · first | trivial | rfl | simp
        · first | trivial | rfl | simp
        · first | trivial | rfl | simp
        · rw [hcap]
          simp
        · first | trivial | rfl | simp
        · first | trivial | rfl | simp
        · rw [hcap]
          simp [getOptimalFilterTexture, countAcq_append, countAcq]
        · simp [getOptimalFilterTexture, countRel_append, countRel]
        · simp [getOptimalFilterTexture, applyEvents_append, applyEvents]
        · simp [getOptimalFilterTexture, List.mem_append]
        · intro _
          constructor
          · simp [getOptimalFilterTexture, List.mem_append]
          · first | trivial | rfl | simp
        · intro hclean
          refine ⟨⟨?_, ?_⟩, ?_⟩
          · intro ⟨f, hf, hfa⟩
            rw [hclean f hf] at hfa
            exact Bool.noConfusion hfa
          · intro habs
            rw [hcap] at habs
            exact Bool.noConfusion habs
          · intro f hf hfa
            rw [hclean f hf] at hfa
            exact Bool.noConfusion hfa
        · intro hfalse
          exact absurd hfalse (by simp)

/-! ### The stages of `pop` -/

theorem popUniforms_spec (state : FState) (restStack : List FState) (st : W) :
    countAcq (popUniforms state restStack st).trace = countAcq st.trace
    ∧ countRel (popUniforms state restStack st).trace = countRel st.trace
    ∧ applyEvents (popUniforms state restStack st).trace = applyEvents st.trace
    ∧ (popUniforms state restStack st).crashed = st.crashed
    ∧ (popUniforms state restStack st).filterStack = restStack
    ∧ (popUniforms state restStack st).statePool = st.statePool
    ∧ (Ev.legacyUniforms ∈ (popUniforms state restStack st).trace
        ↔ Ev.legacyUniforms ∈ st.trace ∨ state.legacy = true) := by
  cases hl : state.legacy <;>
    simp [popUniforms, hl, countAcq_append, countRel_append, applyEvents_append,
      countAcq, countRel, applyEvents, List.mem_append]

theorem popBlit_spec (rt : Tex) (st : W) :
    countAcq (popBlit rt st).trace = countAcq st.trace
    ∧ countRel (popBlit rt st).trace = countRel st.trace
    ∧ applyEvents (popBlit rt st).trace = applyEvents st.trace
    ∧ (popBlit rt st).crashed = st.crashed
    ∧ (popBlit rt st).filterStack = st.filterStack
    ∧ (popBlit rt st).statePool = st.statePool
    ∧ (popBlit rt st).gu = st.gu
    ∧ (Ev.legacyUniforms ∈ (popBlit rt st).trace
        ↔ Ev.legacyUniforms ∈ st.trace) := by
  by_cases hms : rt.multisample > 1 <;>
    simp [popBlit, hms, countAcq_append, countRel_append, applyEvents_append,
      countAcq, countRel, applyEvents, List.mem_append]

theorem pingPong_spec (env : Env) (fs : List FilterObj) (res : ℚ) (ms : ℕ) :
    ∀ (fuel i : ℕ) (flip flop : Tex) (st : W),
      countAcq (pingPong env fs res ms i fuel flip flop st).2.2.trace
        = countAcq st.trace + (if ms > 1 ∧ i ≤ 1 ∧ 1 < i + fuel then 1 else 0)
      ∧ countRel (pingPong env fs res ms i fuel flip flop st).2.2.trace
        = countRel st.trace
      ∧ (pingPong env fs res ms i fuel flip flop st).2.2.crashed = st.crashed
      ∧ (pingPong env fs res ms i fuel flip flop st).2.2.filterStack = st.filterStack
      ∧ (pingPong env fs res ms i fuel flip flop st).2.2.statePool = st.statePool
      ∧ (Ev.legacyUniforms ∈ (pingPong env fs res ms i fuel flip flop st).2.2.trace
          ↔ Ev.legacyUniforms ∈ st.trace) := by
  intro fuel
  induction fuel with
  | zero =>
      intro i flip flop st
      have hc : ¬(ms > 1 ∧ i ≤ 1 ∧ 1 < i + 0) := by omega
      rw [if_neg hc]
      exact ⟨rfl, rfl, rfl, rfl, rfl, Iff.rfl⟩
  | succ fuel ih =>
      intro i flip flop st
      by_cases hi : i = 1 ∧ ms > 1
      · have hunf : pingPong env fs res ms i (fuel + 1) flip flop st
            = pingPong env fs res ms (i + 1) fuel
                { (getOptimalFilterTexture env flip.width flip.height res 0 st).1 with
                  filterFrame := flip.filterFrame } flip
                (applyEv i (fs.getD i default) flip.id
                  (some (getOptimalFilterTexture env flip.width flip.height res 0
                    st).1.id) false
                  (getOptimalFilterTexture env flip.width flip.height res 0 st).2) := by
          simp only [pingPong, if_pos hi]
        rcases ih (i + 1)
          ({ (getOptimalFilterTexture env flip.width flip.height res 0 st).1 with
            filterFrame := flip.filterFrame }) flip
          (applyEv i (fs.getD i default) flip.id
            (some (getOptimalFilterTexture env flip.width flip.height res 0 st).1.id)
            false (getOptimalFilterTexture env flip.width flip.height res 0 st).2) with
          ⟨k1, k2, k3, k4, k5, k6⟩
        have hc1 : ¬(ms > 1 ∧ i + 1 ≤ 1 ∧ 1 < (i + 1) + fuel) := by omega
        have hc2 : (ms > 1 ∧ i ≤ 1 ∧ 1 < i + (fuel + 1)) := by omega
        rw [hunf, if_pos hc2]
        rw [if_neg hc1] at k1
        refine ⟨?_, ?_, ?_, ?_, ?_, ?_⟩
        · rw [k1]
          simp [applyEv, getOptimalFilterTexture, countAcq_append, countAcq]
        · rw [k2]
          simp [applyEv, getOptimalFilterTexture, countRel_append, countRel]
        · rw [k3]
          simp [applyEv, getOptimalFilterTexture]
        · rw [k4]
          simp [applyEv, getOptimalFilterTexture]
        · rw [k5]
          simp [applyEv, getOptimalFilterTexture]
        · rw [k6]
          simp [applyEv, getOptimalFilterTexture, List.mem_append]
      · have hunf : pingPong env fs res ms i (fuel + 1) flip flop st
            = pingPong env fs res ms (i + 1) fuel flop flip
                (applyEv i (fs.getD i default) flip.id (some flop.id) false st) := by
          simp only [pingPong, if_neg hi]
        rcases ih (i + 1) flop flip
          (applyEv i (fs.getD i default) flip.id (some flop.id) false st) with
          ⟨k1, k2, k3, k4, k5, k6⟩
        have hiff : (ms > 1 ∧ i + 1 ≤ 1 ∧ 1 < (i + 1) + fuel)
            ↔ (ms > 1 ∧ i ≤ 1 ∧ 1 < i + (fuel + 1)) := by omega
        have hite : (if ms > 1 ∧ i + 1 ≤ 1 ∧ 1 < (i + 1) + fuel then (1:ℕ) else 0)
            = (if ms > 1 ∧ i ≤ 1 ∧ 1 < i + (fuel + 1) then 1 else 0) :=
          if_congr hiff rfl rfl
        rw [hunf]
        refine ⟨?_, ?_, ?_, ?_, ?_, ?_⟩
        · rw [k1, hite]
          simp [applyEv, countAcq_append, countAcq]
        · rw [k2]
          simp [applyEv, countRel_append, countRel]
        · rw [k3]
          simp [applyEv]
        · rw [k4]
          simp [applyEv]
        · rw [k5]
          simp [applyEv]
        · rw [k6]
          simp [applyEv, List.mem_append]

theorem backdropRelease_freed :
    ∀ (fs : List FilterObj) (st : W),
      countAcq (backdropRelease fs true st).2.trace = countAcq st.trace
      ∧ countRel (backdropRelease fs true st).2.trace = countRel st.trace
      ∧ applyEvents (backdropRelease fs true st).2.trace = applyEvents st.trace
      ∧ (backdropRelease fs true st).2.crashed = st.crashed
      ∧ (backdropRelease fs true st).2.filterStack = st.filterStack
      ∧ (backdropRelease fs true st).2.statePool = st.statePool
      ∧ (Ev.legacyUniforms ∈ (backdropRelease fs true st).2.trace
          ↔ Ev.legacyUniforms ∈ st.trace) := by
  intro fs
  induction fs with
  | nil =>
      intro st
      exact ⟨rfl, rfl, rfl, rfl, rfl, rfl, Iff.rfl⟩
  | cons f fs ih =>
      intro st
      by_cases ha : f.backdropActive = true
      · have hunf : backdropRelease (f :: fs) true st
            = ({ f with
                uniforms := uset f.uniforms (f.backdropUniformName.getD "")
                  (UVal.tex none),
                backdropActive := false } :: (backdropRelease fs true st).1,
               (backdropRelease fs true st).2) := by
          simp only [backdropRelease, ha, if_true]
        rw [hunf]
        exact ih st
      · have ha' : f.backdropActive = false := by
          revert ha
          cases f.backdropActive <;> simp
        have hunf : backdropRelease (f :: fs) true st
            = (f :: (backdropRelease fs true st).1, (backdropRelease fs true st).2) := by
          simp only [backdropRelease, ha', Bool.false_eq_true, if_false]
        rw [hunf]
        exact ih st

theorem backdropRelease_clean :
    ∀ (fs : List FilterObj) (freed : Bool) (st : W),
      (∀ f ∈ fs, f.backdropActive = false) →
      backdropRelease fs freed st = (fs, st) := by
  intro fs
  induction fs with
  | nil => intro freed st _; rfl
  | cons f fs ih =>
      intro freed st hclean
      have ha : f.backdropActive = false := hclean f (List.mem_cons_self _ _)
      have hrec := ih freed st (fun g hg => hclean g (List.mem_cons_of_mem _ hg))
      simp only [backdropRelease, ha, Bool.false_eq_true, if_false, hrec]

theorem backdropRelease_spec :
    ∀ (fs : List FilterObj) (st : W),
      (∀ f ∈ fs, f.backdropActive = true →
        ∃ bN tid, f.backdropUniformName = some bN
          ∧ uget f.uniforms bN = some (UVal.tex (some tid))) →
      countAcq (backdropRelease fs false st).2.trace = countAcq st.trace
      ∧ countRel (backdropRelease fs false st).2.trace
          = countRel st.trace + (if fs.any FilterObj.backdropActive then 1 else 0)
      ∧ applyEvents (backdropRelease fs false st).2.trace = applyEvents st.trace
      ∧ (backdropRelease fs false st).2.crashed = st.crashed
      ∧ (backdropRelease fs false st).2.filterStack = st.filterStack
      ∧ (backdropRelease fs false st).2.statePool = st.statePool
      ∧ (Ev.legacyUniforms ∈ (backdropRelease fs false st).2.trace
          ↔ Ev.legacyUniforms ∈ st.trace) := by
  intro fs
  induction fs with
  | nil =>
      intro st _
      exact ⟨rfl, rfl, rfl, rfl, rfl, rfl, Iff.rfl⟩
  | cons f fs ih =>
      intro st hgood
      by_cases ha : f.backdropActive = true
      · rcases hgood f (List.mem_cons_self _ _) ha with ⟨bN, tid, hb1, hb2⟩
        have hunf : backdropRelease (f :: fs) false st
            = ({ f with
                uniforms := uset f.uniforms (f.backdropUniformName.getD "")
                  (UVal.tex none),
                backdropActive := false } :: (backdropRelease fs true
                  (returnTex tid st)).1,
               (backdropRelease fs true (returnTex tid st)).2) := by
          simp only [backdropRelease, ha, if_true, Bool.false_eq_true, if_false,
            hb1, Option.getD_some, hb2]
        rcases backdropRelease_freed fs (returnTex tid st) with
          ⟨k1, k2, k3, k4, k5, k6, k7⟩
        have hany : (f :: fs).any FilterObj.backdropActive = true := by
          simp [List.any_cons, ha]
        rw [hunf, hany]
        refine ⟨?_, ?_, ?_, ?_, ?_, ?_, ?_⟩
        · rw [k1]
          simp [returnTex, countAcq_append, countAcq]
        · rw [k2]
          simp [returnTex, countRel_append, countRel]
        · rw [k3]
          simp [returnTex, applyEvents_append, applyEvents]
        · rw [k4]
          rfl
        · rw [k5]
          rfl
        · rw [k6]
          rfl
        · rw [k7]
          simp [returnTex, List.mem_append]
      · have ha' : f.backdropActive = false := by
          revert ha
          cases f.backdropActive <;> simp
        have hunf : backdropRelease (f :: fs) false st
            = (f :: (backdropRelease fs false st).1,
               (backdropRelease fs false st).2) := by
          simp only [backdropRelease, ha', Bool.false_eq_true, if_false]
        have hany : (f :: fs).any FilterObj.backdropActive
            = fs.any FilterObj.backdropActive := by
          simp [List.any_cons, ha']
        rcases ih st (fun g hg => hgood g (List.mem_cons_of_mem _ hg)) with
          ⟨k1, k2, k3, k4, k5, k6, k7⟩
        rw [hunf, hany]
        exact ⟨k1, k2, k3, k4, k5, k6, k7⟩

theorem popChain_spec (env : Env) (state : FState) (filters1 : List FilterObj)
    (effLen : ℕ) (rt : Tex) (outId : Option ℕ) (st : W) :
    ∃ a,
      countAcq (popChain env state filters1 effLen rt outId st).trace
        = countAcq st.trace + a
      ∧ countRel (popChain env state filters1 effLen rt outId st).trace
        = countRel st.trace + a + 1
      ∧ (popChain env state filters1 effLen rt outId st).crashed = st.crashed
      ∧ (popChain env state filters1 effLen rt outId st).filterStack = st.filterStack
      ∧ (popChain env state filters1 effLen rt outId st).statePool = st.statePool
      ∧ (Ev.legacyUniforms ∈ (popChain env state filters1 effLen rt outId st).trace
          ↔ Ev.legacyUniforms ∈ st.trace) := by
  by_cases h1 : effLen = 1
  · refine ⟨0, ?_, ?_, ?_, ?_, ?_, ?_⟩ <;>
      simp [popChain, h1, returnTex, applyEv, countAcq_append, countRel_append,
        applyEvents_append, countAcq, countRel, applyEvents, List.mem_append]
  · rcases pingPong_spec env filters1 state.resolution state.multisample (effLen - 1) 0
      rt ({ (getOptimalFilterTexture env rt.width rt.height state.resolution 0 st).1 with
        filterFrame := rt.filterFrame })
      ((getOptimalFilterTexture env rt.width rt.height state.resolution 0 st).2) with
      ⟨k1, k2, k3, k4, k5, k6⟩
    have hcond : (state.multisample > 1 ∧ 0 ≤ 1 ∧ 1 < 0 + (effLen - 1))
        ↔ (effLen - 1 > 1 ∧ state.multisample > 1) := by omega
    by_cases hms : effLen - 1 > 1 ∧ state.multisample > 1
    · have hc : (state.multisample > 1 ∧ 0 ≤ 1 ∧ 1 < 0 + (effLen - 1)) := hcond.mpr hms
      rw [if_pos hc] at k1
      simp only [getOptimalFilterTexture] at k1 k2 k3 k4 k5 k6
      simp [countAcq_append, countAcq, countRel_append, countRel,
        List.mem_append] at k1 k2 k3 k4 k5 k6
      refine ⟨2, ?_, ?_, ?_, ?_, ?_, ?_⟩ <;>
        · simp only [popChain, if_neg h1, if_pos hms]
          simp [returnTex, applyEv, countAcq_append, countRel_append,
            applyEvents_append, countAcq, countRel, applyEvents, List.mem_append,
            k1, k2, k3, k4, k5, k6, getOptimalFilterTexture]
          try omega
    · have hc : ¬(state.multisample > 1 ∧ 0 ≤ 1 ∧ 1 < 0 + (effLen - 1)) :=
        fun hx => hms (hcond.mp hx)
      rw [if_neg hc] at k1
      simp only [getOptimalFilterTexture] at k1 k2 k3 k4 k5 k6
      simp [countAcq_append, countAcq, countRel_append, countRel,
        List.mem_append] at k1 k2 k3 k4 k5 k6
      refine ⟨1, ?_, ?_, ?_, ?_, ?_, ?_⟩ <;>
        · simp only [popChain, if_neg h1, if_neg hms]
          simp [returnTex, applyEv, countAcq_append, countRel_append,
            applyEvents_append, countAcq, countRel, applyEvents, List.mem_append,
            k1, k2, k3, k4, k5, k6, getOptimalFilterTexture]
          try omega

/-- A filter whose backdrop bookkeeping is consistent: whenever it is
flagged `_backdropActive`, its backdrop uniform names a pooled texture.
`push` establishes this for every filter it captures a backdrop for. -/
def goodUniform (f : FilterObj) : Prop :=
  f.backdropActive = true →
    ∃ bN tid, f.backdropUniformName = some bN
      ∧ uget f.uniforms bN = some (UVal.tex (some tid))

theorem any_set_fstate :
    ∀ (fs : List FilterObj) (k v : ℕ),
      (fs.set k { fs.getD k default with fstate := v }).any FilterObj.backdropActive
        = fs.any FilterObj.backdropActive := by
  intro fs
  induction fs with
  | nil => intro k v; rfl
  | cons f fs ih =>
      intro k v
      cases k with
      | zero =>
          simp only [List.set_cons_zero, List.getD_cons_zero, List.any_cons]
      | succ k =>
          simp only [List.set_cons_succ, List.getD_cons_succ, List.any_cons, ih]

theorem good_set_fstate :
    ∀ (fs : List FilterObj) (k v : ℕ),
      (∀ f ∈ fs, goodUniform f) →
      ∀ f ∈ fs.set k { fs.getD k default with fstate := v }, goodUniform f := by
  intro fs
  induction fs with
  | nil => intro k v _ f hf; simp [List.set] at hf
  | cons g fs ih =>
      intro k v hgood f hf
      cases k with
      | zero =>
          simp only [List.set_cons_zero, List.getD_cons_zero, List.mem_cons] at hf
          rcases hf with hf | hf
          · subst hf
            exact fun ha => hgood g (List.mem_cons_self _ _) ha
          · exact hgood f (List.mem_cons_of_mem _ hf)
      | succ k =>
          simp only [List.set_cons_succ, List.getD_cons_succ, List.mem_cons] at hf
          rcases hf with hf | hf
          · subst hf
            exact hgood f (List.mem_cons_self _ _)
          · exact ih k v (fun x hx => hgood x (List.mem_cons_of_mem _ hx)) f hf

/-- Trace and bookkeeping effect of `pop` on a well-formed two-deep region
stack: for some number `a` of scratch acquisitions, the pop releases
`a + 1` chain textures plus one backdrop texture if any filter held one;
the stack shrinks by one, the popped region state is recycled into the
pool, and the legacy uniform pair is uploaded exactly when the region was
marked legacy. -/
theorem pop_spec (env : Env) (st : W) (state lastState : FState)
    (rest2 : List FState) (rt : Tex)
    (hst : st.filterStack = state :: lastState :: rest2)
    (hrt : state.renderTexture = some rt)
    (hgood : ∀ f ∈ state.filters, goodUniform f) :
    ∃ a,
      countAcq (pop env st).2.trace = countAcq st.trace + a
      ∧ countRel (pop env st).2.trace
          = countRel st.trace + a + 1
            + (if state.filters.any FilterObj.backdropActive then 1 else 0)
      ∧ (pop env st).2.crashed = st.crashed
      ∧ (pop env st).2.filterStack = lastState :: rest2
      ∧ (pop env st).2.statePool = state.clear :: st.statePool
      ∧ (Ev.legacyUniforms ∈ (pop env st).2.trace
          ↔ Ev.legacyUniforms ∈ st.trace ∨ state.legacy = true) := by
  rcases popUniforms_spec state (lastState :: rest2) st with
    ⟨u1, u2, u3, u4, u5, u6, u7⟩
  rcases popBlit_spec rt (popUniforms state (lastState :: rest2) st) with
    ⟨b1, b2, b3, b4, b5, b6, b7, b8⟩
  by_cases hdt : 2 ≤ state.filters.length
      ∧ (state.filters.getLastD default).trivial = true
  · rcases popChain_spec env state
      (state.filters.set (state.filters.length - 2)
        { state.filters.getD (state.filters.length - 2) default with
          fstate := (state.filters.getD (state.filters.length - 1) default).fstate })
      (state.filters.length - 1) rt (lastState.renderTexture.map Tex.id)
      (popBlit rt (popUniforms state (lastState :: rest2) st)) with
      ⟨a, c1, c2, c3, c4, c5, c6⟩
    have hgood1 : ∀ f ∈ (state.filters.set (state.filters.length - 2)
        { state.filters.getD (state.filters.length - 2) default with
          fstate := (state.filters.getD (state.filters.length - 1) default).fstate }),
        goodUniform f :=
      good_set_fstate state.filters _ _ hgood
    have hgood2 : ∀ f ∈ ((state.filters.set (state.filters.length - 2)
        { state.filters.getD (state.filters.length - 2) default with
          fstate := (state.filters.getD (state.filters.length - 1) default).fstate
          }).set (state.filters.length - 1 - 1)
        { (state.filters.set (state.filters.length - 2)
            { state.filters.getD (state.filters.length - 2) default with
              fstate := (state.filters.getD (state.filters.length - 1)
                default).fstate }).getD (state.filters.length - 1 - 1) default with
          fstate := (state.filters.getD (state.filters.length - 2)
            default).fstate }), goodUniform f :=
      good_set_fstate _ _ _ hgood1
    rcases backdropRelease_spec _
      (popChain env state
        (state.filters.set (state.filters.length - 2)
          { state.filters.getD (state.filters.length - 2) default with
            fstate := (state.filters.getD (state.filters.length - 1) default).fstate })
        (state.filters.length - 1) rt (lastState.renderTexture.map Tex.id)
        (popBlit rt (popUniforms state (lastState :: rest2) st)))
      (fun f hf ha => hgood2 f hf ha) with
      ⟨r1, r2, r3, r4, r5, r6, r7⟩
    have hany : ((state.filters.set (state.filters.length - 2)
        { state.filters.getD (state.filters.length - 2) default with
          fstate := (state.filters.getD (state.filters.length - 1) default).fstate
          }).set (state.filters.length - 1 - 1)
        { (state.filters.set (state.filters.length - 2)
            { state.filters.getD (state.filters.length - 2) default with
              fstate := (state.filters.getD (state.filters.length - 1)
                default).fstate }).getD (state.filters.length - 1 - 1) default with
          fstate := (state.filters.getD (state.filters.length - 2)
            default).fstate }).any FilterObj.backdropActive
        = state.filters.any FilterObj.backdropActive := by
      rw [any_set_fstate, any_set_fstate]
    refine ⟨a, ?_, ?_, ?_, ?_, ?_, ?_⟩
    · simp only [pop, hst, hrt, if_pos hdt]
      rw [r1, c1, b1, u1]
    · simp only [pop, hst, hrt, if_pos hdt]
      rw [r2, hany, c2, b2, u2]
    · simp only [pop, hst, hrt, if_pos hdt]
      rw [r4, c3, b4, u4]
    · simp only [pop, hst, hrt, if_pos hdt]
      rw [r5, c4, b5, u5]
    · simp only [pop, hst, hrt, if_pos hdt]
      rw [r6, c5, b6, u6]
    · simp only [pop, hst, hrt, if_pos hdt]
      rw [r7, c6, b8, u7]
  · rcases popChain_spec env state state.filters state.filters.length rt
      (lastState.renderTexture.map Tex.id)
      (popBlit rt (popUniforms state (lastState :: rest2) st)) with
      ⟨a, c1, c2, c3, c4, c5, c6⟩
    rcases backdropRelease_spec state.filters
      (popChain env state state.filters state.filters.length rt
        (lastState.renderTexture.map Tex.id)
        (popBlit rt (popUniforms state (lastState :: rest2) st)))
      (fun f hf ha => hgood f hf ha) with
      ⟨r1, r2, r3, r4, r5, r6, r7⟩
    refine ⟨a, ?_, ?_, ?_, ?_, ?_, ?_⟩
    · simp only [pop, hst, hrt, if_neg hdt]
      rw [r1, c1, b1, u1]
    · simp only [pop, hst, hrt, if_neg hdt]
      rw [r2, c2, b2, u2]
    · simp only [pop, hst, hrt, if_neg hdt]
      rw [r4, c3, b4, u4]
    · simp only [pop, hst, hrt, if_neg hdt]
      rw [r5, c4, b5, u5]
    · simp only [pop, hst, hrt, if_neg hdt]
      rw [r6, c5, b6, u6]
    · simp only [pop, hst, hrt, if_neg hdt]
      rw [r7, c6, b8, u7]

/-! ### Composing `pushOpen` with `pop` -/

theorem pushOpen_ok (env : Env) (f0 : FilterObj) (rest : List FilterObj)
    (state1 : FState) (stack0 pool0 : List FState) (sf : Rect) (canB : Bool)
    (agg : Agg) (st : W) :
    (pushOpen env f0 rest state1 stack0 pool0 sf canB agg st).ok = true := rfl

theorem rootUpdate_length (env : Env) (stack : List FState) :
    (rootUpdate env stack).length = stack.length := by
  rw [rootUpdate.eq_def]
  by_cases h : stack.length = 1
  · rw [if_pos h]
    cases stack with
    | nil => rfl
    | cons s t => simp
  · rw [if_neg h]

theorem push_false_eq (env : Env) (targetId : ℕ) (targetRect : Rect)
    (f0 : FilterObj) (rest : List FilterObj) (st : W) :
    pushWithCheck env targetId targetRect (f0 :: rest) false st
      = pushOpen env f0 rest
          { st.statePool.headD FState.new with
            resolution := (aggregate env.useMaxPadding (currentResolution env)
              (currentMultisample env) f0 rest).resolution,
            legacy := (aggregate env.useMaxPadding (currentResolution env)
              (currentMultisample env) f0 rest).legacy,
            targetId := some targetId,
            sourceFrame := (resolveSourceFrame env targetRect
              (aggregate env.useMaxPadding (currentResolution env)
                (currentMultisample env) f0 rest).padding
              (aggregate env.useMaxPadding (currentResolution env)
                (currentMultisample env) f0 rest).autoFit).1 }
          (rootUpdate env st.filterStack) st.statePool.tail
          (resolveSourceFrame env targetRect
            (aggregate env.useMaxPadding (currentResolution env)
              (currentMultisample env) f0 rest).padding
            (aggregate env.useMaxPadding (currentResolution env)
              (currentMultisample env) f0 rest).autoFit).1
          (resolveSourceFrame env targetRect
            (aggregate env.useMaxPadding (currentResolution env)
              (currentMultisample env) f0 rest).padding
            (aggregate env.useMaxPadding (currentResolution env)
              (currentMultisample env) f0 rest).autoFit).2
          (aggregate env.useMaxPadding (currentResolution env)
            (currentMultisample env) f0 rest) st := by
  simp [pushWithCheck]

theorem openClose_balance (env : Env) (f0 : FilterObj) (rest : List FilterObj)
    (state1 : FState) (stack0 pool0 : List FState) (sf : Rect) (canB : Bool)
    (agg : Agg) (st : W) (t1 : FState) (trest : List FState)
    (hstk : stack0 = t1 :: trest)
    (hclean : ∀ f ∈ f0 :: rest, f.backdropActive = false) :
    ∃ k,
      countAcq (pop env (pushOpen env f0 rest state1 stack0 pool0 sf canB agg
        st).world).2.trace = countAcq st.trace + k
      ∧ countRel (pop env (pushOpen env f0 rest state1 stack0 pool0 sf canB agg
        st).world).2.trace = countRel st.trace + k := by
  subst hstk
  rcases pushOpen_spec env f0 rest state1 (t1 :: trest) pool0 sf canB agg st with
    ⟨p1, p2, p3, p4, p5, p6, p7, p8, p9, p10, p11, p12, p13, p14, p15, p16, p17,
      p18, p19, p20⟩
  rcases Option.isSome_iff_exists.mp p5 with ⟨rtx, hrtx⟩
  have hgoodH : ∀ f ∈ ((pushOpen env f0 rest state1 (t1 :: trest) pool0 sf canB agg
      st).world.filterStack.headD FState.new).filters, goodUniform f := by
    rw [p7]
    intro f hf ha
    exact (p19 hclean).2 f hf ha
  rcases pop_spec env (pushOpen env f0 rest state1 (t1 :: trest) pool0 sf canB agg
    st).world _ t1 trest rtx p4 hrtx hgoodH with ⟨a, q1, q2, q3, q4, q5, q6⟩
  have hany : ((pushOpen env f0 rest state1 (t1 :: trest) pool0 sf canB agg
      st).world.filterStack.headD FState.new).filters.any FilterObj.backdropActive
      = backdropCaptured env canB (f0 :: rest) := by
    rw [p7]
    cases hv : (pushOpen env f0 rest state1 (t1 :: trest) pool0 sf canB agg
        st).filters.any FilterObj.backdropActive with
    | true =>
        rcases List.any_eq_true.mp hv with ⟨f, hf, ha⟩
        exact ((p19 hclean).1.mp ⟨f, hf, ha⟩).symm
    | false =>
        cases hb : backdropCaptured env canB (f0 :: rest) with
        | false => rfl
        | true =>
            rcases (p19 hclean).1.mpr hb with ⟨f, hf, ha⟩
            have hv' := List.any_eq_true.mpr ⟨f, hf, ha⟩
            rw [hv] at hv'
            exact absurd hv' (by simp)
  rw [hany] at q2
  refine ⟨1 + (if backdropCaptured env canB (f0 :: rest) then 1 else 0) + a, ?_, ?_⟩
  · rw [q1, p14]
    ring
  · rw [q2, p15]
    ring

theorem openClose_legacy (env : Env) (f0 : FilterObj) (rest : List FilterObj)
    (state1 : FState) (stack0 pool0 : List FState) (sf : Rect) (canB : Bool)
    (agg : Agg) (st : W) (t1 : FState) (trest : List FState)
    (hstk : stack0 = t1 :: trest)
    (hclean : ∀ f ∈ f0 :: rest, f.backdropActive = false) :
    (Ev.legacyUniforms ∈ (pop env (pushOpen env f0 rest state1 stack0 pool0 sf canB
        agg st).world).2.trace
      ↔ Ev.legacyUniforms ∈ st.trace ∨ state1.legacy = true) := by
  subst hstk
  rcases pushOpen_spec env f0 rest state1 (t1 :: trest) pool0 sf canB agg st with
    ⟨p1, p2, p3, p4, p5, p6, p7, p8, p9, p10, p11, p12, p13, p14, p15, p16, p17,
      p18, p19, p20⟩
  rcases Option.isSome_iff_exists.mp p5 with ⟨rtx, hrtx⟩
  have hgoodH : ∀ f ∈ ((pushOpen env f0 rest state1 (t1 :: trest) pool0 sf canB agg
      st).world.filterStack.headD FState.new).filters, goodUniform f := by
    rw [p7]
    intro f hf ha
    exact (p19 hclean).2 f hf ha
  rcases pop_spec env (pushOpen env f0 rest state1 (t1 :: trest) pool0 sf canB agg
    st).world _ t1 trest rtx p4 hrtx hgoodH with ⟨a, q1, q2, q3, q4, q5, q6⟩
  rw [q6, p17, p8]

/-! ### Concrete fixtures for counterexamples and witnesses -/

/-- Pool sizing that returns exactly the requested dimensions. -/
def poolExact : ℚ → ℚ → ℚ × ℚ := fun w h => (w, h)

/-- A bound render texture of resolution 2 without multisampling. -/
def texBound : Tex := ⟨500, 100, 100, 2, 0, none⟩

/-- A baseline environment: `texBound` bound, visible frame 100×100, no
projection transform, opaque background, identity geometry helpers and an
exact pool. -/
def envBase : Env :=
  { current := some texBound, rendererResolution := 1, rendererMultisample := 0,
    sourceFrame := ⟨0, 0, 100, 100⟩, destinationFrame := ⟨0, 0, 200, 200⟩,
    projTransform := none, backgroundAlpha := 1, useMaxPadding := false,
    invert := fun m => m, transformAABB := fun _ r => r,
    roundFrame := fun r _ _ _ _ => r, poolDims := poolExact }

/-- A fresh world with one root state on the region stack. -/
def worldBase : W :=
  { filterStack := [FState.new], statePool := [], nextTex := 0,
    hadBackbufferError := false, crashed := false, gu := default, trace := [] }

/-- A plain declared-modern filter with no backdrop requirement. -/
def fxPlain : FilterObj :=
  { resolution := some 1, multisample := some 0, padding := 3, autoFit := true,
    legacy := some false, backdropUniformName := none, trivial := false,
    clearColor := none, uniforms := [], backdropActive := false, fstate := 1 }

/-- A second plain filter with larger padding. -/
def fxPad : FilterObj := { fxPlain with padding := 5, fstate := 2 }

/-- A filter requesting a backdrop under the uniform name `u`. -/
def fxBackdrop : FilterObj := { fxPlain with backdropUniformName := some "u", fstate := 3 }

/-! ### C5 -/

/-- C5: for the same chain, the aggregated padding is the maximum of the
filters' paddings under the `useMaxPadding` policy and their arithmetic
sum otherwise, while the aggregated `autoFit` (conjunction) and `legacy`
(disjunction) are identical under either policy. -/
theorem c5_padding_policy (cur : ℚ) (cms : ℕ) (f0 : FilterObj) (rest : List FilterObj) :
    ((aggregate true cur cms f0 rest).padding ∈ (f0 :: rest).map FilterObj.padding
      ∧ ∀ p ∈ (f0 :: rest).map FilterObj.padding, p ≤ (aggregate true cur cms f0 rest).padding)
    ∧ (aggregate false cur cms f0 rest).padding = ((f0 :: rest).map FilterObj.padding).sum
    ∧ (aggregate true cur cms f0 rest).autoFit = (aggregate false cur cms f0 rest).autoFit
    ∧ (aggregate true cur cms f0 rest).legacy = (aggregate false cur cms f0 rest).legacy := by
  have hmaxEq : (aggregate true cur cms f0 rest).padding
      = (rest.map FilterObj.padding).foldl max f0.padding := by
    rw [aggregate, aggFold_padding, List.foldl_map]
    simp [aggInit]
  have hsumEq : (aggregate false cur cms f0 rest).padding
      = rest.foldl (fun p f => p + f.padding) f0.padding := by
    rw [aggregate, aggFold_padding]
    simp [aggInit]
  refine ⟨⟨?_, ?_⟩, ?_, ?_, ?_⟩
  · rw [hmaxEq, List.map_cons]
    rcases foldl_max_mem (rest.map FilterObj.padding) f0.padding with h | h
    · rw [h]; exact List.mem_cons_self _ _
    · exact List.mem_cons_of_mem _ h
  · intro p hp
    rw [hmaxEq]
    rw [List.map_cons, List.mem_cons] at hp
    rcases hp with h | h
    · exact h ▸ (foldl_max_le (rest.map FilterObj.padding) f0.padding).1
    · exact (foldl_max_le (rest.map FilterObj.padding) f0.padding).2 p h
  · rw [hsumEq, foldl_add_eq, List.map_cons, List.sum_cons]
  · rw [aggregate_autoFit_all, aggregate_autoFit_all]
  · rw [aggregate_legacy_any, aggregate_legacy_any]

theorem c5_witness : (5 : ℚ) ≤ (aggregate true 1 0 fxPlain [fxPad]).padding :=
  (c5_padding_policy 1 0 fxPlain [fxPad]).1.2 5 (by decide)

/-! ### C6 -/

/-- C6: `prepareBackdrop` invoked while the main backbuffer is bound and
the configured background alpha is at least 1 always returns `null`,
performs no GPU copy and acquires no pooled texture; it warns exactly on
the first such failure in the process and is silent on every later one. -/
theorem c6_backbuffer_capture_fails (env : Env) (bounds : Rect) (flip : ℚ × ℚ) (st : W)
    (hcur : env.current = none) (halpha : 1 ≤ env.backgroundAlpha) :
    (prepareBackdrop env bounds flip st).1 = none
    ∧ (prepareBackdrop env bounds flip st).2.2.trace
        = st.trace ++ [Ev.prepareB] ++ (if st.hadBackbufferError then [] else [Ev.warn])
    ∧ countAcq (prepareBackdrop env bounds flip st).2.2.trace = countAcq st.trace
    ∧ (∀ x y w h, Ev.copyPixels x y w h ∈ (prepareBackdrop env bounds flip st).2.2.trace
        ↔ Ev.copyPixels x y w h ∈ st.trace)
    ∧ (prepareBackdrop env bounds flip st).2.2.hadBackbufferError = true
    ∧ countWarn (prepareBackdrop env bounds flip st).2.2.trace
        = countWarn st.trace + (if st.hadBackbufferError then 0 else 1)
    ∧ countWarn (prepareBackdrop env bounds flip
          (prepareBackdrop env bounds flip st).2.2).2.2.trace
        = countWarn (prepareBackdrop env bounds flip st).2.2.trace := by
  have key : ∀ (w : W), w.hadBackbufferError = true →
      prepareBackdrop env bounds flip w
        = (none, flip, { w with trace := w.trace ++ [Ev.prepareB] }) := by
    intro w hw
    rw [prepareBackdrop, hcur]
    simp [if_pos halpha, hw]
  by_cases hflag : st.hadBackbufferError = true
  · have h1 := key st hflag
    have h2 := key { st with trace := st.trace ++ [Ev.prepareB] } hflag
    rw [h1, h2]
    rw [hflag]
    refine ⟨rfl, by simp, ?_, ?_, rfl, ?_, ?_⟩
    · simp [countAcq_append, countAcq]
    · intro x y w h
      simp [List.mem_append]
    · simp [countWarn_append, countWarn]
    · simp [countWarn_append, countWarn]
  · have hflag' : st.hadBackbufferError = false := by
      revert hflag
      cases st.hadBackbufferError <;> simp
    have h1 : prepareBackdrop env bounds flip st
        = (none, flip, { st with
            hadBackbufferError := true,
            trace := st.trace ++ [Ev.prepareB] ++ [Ev.warn] }) := by
      rw [prepareBackdrop, hcur]
      simp [if_pos halpha, hflag']
    have h2 := key ({ st with
      hadBackbufferError := true,
      trace := st.trace ++ [Ev.prepareB] ++ [Ev.warn] } : W) rfl
    rw [h1, h2]
    rw [hflag']
    refine ⟨rfl, by simp, ?_, ?_, rfl, ?_, ?_⟩
    · simp [countAcq_append, countAcq]
    · intro x y w h
      simp [List.mem_append]
    · simp [countWarn_append, countWarn]
    · simp [countWarn_append, countWarn]

theorem c6_witness :
    (1 : ℚ) ≤ ({ envBase with current := none } : Env).backgroundAlpha
    ∧ (prepareBackdrop { envBase with current := none } ⟨0, 0, 10, 10⟩ (0, 1) worldBase).1
        = none :=
  ⟨by decide,
    (c6_backbuffer_capture_fails { envBase with current := none } ⟨0, 0, 10, 10⟩ (0, 1)
      worldBase rfl (by decide)).1⟩

/-! ### C8 -/

/-- C8: with `texBound` (resolution 2) bound, identity projection, bounds
`{10,10,50,50}` and visible frame `{0,0,100,100}` scaled out of a 200×200
logical frame, the capture records flip sign `+1`, copies exactly the
pixel rectangle `{20,20,100,100}` and records flip fraction 0; in general
a successful capture records flip fraction `copyHeight / textureHeight`
when the flip sign is negative and 0 otherwise. -/
theorem c8_backdrop_copy_rect :
    ((prepareBackdrop { envBase with sourceFrame := ⟨0, 0, 200, 200⟩ } ⟨10, 10, 50, 50⟩
        (0, 1) worldBase).2.1 = (0, 1)
      ∧ (prepareBackdrop { envBase with sourceFrame := ⟨0, 0, 200, 200⟩ } ⟨10, 10, 50, 50⟩
          (0, 1) worldBase).2.2.trace
          = [Ev.prepareB, Ev.acquire 0, Ev.copyPixels 20 20 100 100]
      ∧ (prepareBackdrop { envBase with sourceFrame := ⟨0, 0, 200, 200⟩ } ⟨10, 10, 50, 50⟩
          (0, 1) worldBase).1.isSome = true)
    ∧ (∀ (env : Env) (bounds : Rect) (fl0 : ℚ × ℚ) (w0 : W) (rt : Tex) (fl : ℚ × ℚ) (w1 : W),
        prepareBackdrop env bounds fl0 w0 = (some rt, fl, w1) →
          (fl.2 < 0 → fl.1 = (jround (bounds.height * env.rendererResolution) : ℚ) / rt.height)
          ∧ (0 ≤ fl.2 → fl.1 = 0)) := by
  constructor
  · refine ⟨?_, ?_, ?_⟩
    · norm_num [prepareBackdrop, prepareBackdropGo, getOptimalFilterTexture, envBase,
        worldBase, texBound, poolExact, jround, Mat.identity]
    · norm_num [prepareBackdrop, prepareBackdropGo, getOptimalFilterTexture, envBase,
        worldBase, texBound, poolExact, jround, Mat.identity]
    · norm_num [prepareBackdrop, prepareBackdropGo, getOptimalFilterTexture, envBase,
        worldBase, texBound, poolExact, jround, Mat.identity]
  · intro env bounds fl0 w0 rt fl w1 h
    rcases prepareBackdrop_cases env bounds fl0 w0 with ⟨_, _, hnone⟩ | ⟨tgt, _, heq⟩
      | ⟨_, _, heq⟩
    · rw [h] at hnone
      cases hnone
    · rw [heq] at h
      have hfl : fl = (0, (1 : ℚ)) := by
        have hp := prepareBackdropGo_flip env bounds tgt.resolution (fl0.1, 1)
          { w0 with trace := w0.trace ++ [Ev.prepareB] }
        rw [h] at hp
        simpa using hp
      rw [hfl]
      constructor
      · intro habs
        norm_num at habs
      · intro _
        rfl
    · rw [heq] at h
      have hp := prepareBackdropGo_flip env bounds env.rendererResolution (fl0.1, -1)
        { w0 with trace := w0.trace ++ [Ev.prepareB] }
      rw [h] at hp
      have hneg : (((fl0.1, (-1 : ℚ)) : ℚ × ℚ).2 : ℚ) < 0 := by norm_num
      rw [if_pos hneg] at hp
      have hfl : fl = ((jround (bounds.height * env.rendererResolution) : ℚ)
          / (env.poolDims (jround (bounds.width * env.rendererResolution) : ℚ)
              (jround (bounds.height * env.rendererResolution) : ℚ)).2, (-1 : ℚ)) := by
        simpa using hp
      have hheight := prepareBackdropGo_tex env bounds env.rendererResolution (fl0.1, -1)
        { w0 with trace := w0.trace ++ [Ev.prepareB] } rt
      rw [h] at hheight
      have hh := hheight rfl
      constructor
      · intro _
        rw [hfl, hh.1]
      · intro habs
        rw [hfl] at habs
        norm_num at habs

/-- The non-readable-backbuffer environment but with a transparent
background, so backdrop capture against the backbuffer succeeds. -/
def envBB : Env := { envBase with current := none, backgroundAlpha := 0 }

/-- The texture the backbuffer capture of `c8_witness` produces. -/
def texWB : Tex := ⟨0, 10, 20, 1, 0, some ⟨0, 0, 100, 100⟩⟩

/-- The world after the backbuffer capture of `c8_witness`. -/
def worldWB : W :=
  { worldBase with
    nextTex := 1,
    trace := [Ev.prepareB, Ev.acquire 0, Ev.copyPixels 0 80 10 20] }

theorem c8_witness :
    (((1 : ℚ), (-1 : ℚ)).1 : ℚ)
      = (jround ((⟨0, 0, 10, 20⟩ : Rect).height * envBB.rendererResolution) : ℚ)
          / texWB.height :=
  ((c8_backdrop_copy_rect).2 envBB ⟨0, 0, 10, 20⟩ (0, 1) worldBase texWB (1, -1) worldWB
    (by norm_num [prepareBackdrop, prepareBackdropGo, getOptimalFilterTexture, envBB,
      envBase, worldBase, worldWB, texWB, poolExact, jround, Mat.identity])).1 (by norm_num)

/-! ### C1 -/

/-- C1: within one open/close cycle of a filtered region — a
`pushWithCheck` (and so also `push`) followed by its matching `pop` when
the region was accepted — for any chain, either empty-bounds outcome,
whether or not a backdrop is captured, any multisample setting and
whether or not the last filter is trivial, pooled-texture acquisitions
and releases both grow by one and the same number `k`. -/
theorem c1_texture_balance (env : Env) (targetId : ℕ) (targetRect : Rect)
    (fs : List FilterObj) (check : Bool) (s1 : FState) (srest : List FState)
    (st : W)
    (hstack : st.filterStack = s1 :: srest)
    (hclean : ∀ f ∈ fs, f.backdropActive = false) :
    ∃ k,
      countAcq (cycleWorld env targetId targetRect fs check st).trace
        = countAcq st.trace + k
      ∧ countRel (cycleWorld env targetId targetRect fs check st).trace
        = countRel st.trace + k := by
  cases fs with
  | nil =>
      refine ⟨0, ?_, ?_⟩ <;> simp [cycleWorld, pushWithCheck]
  | cons f0 rest =>
      by_cases hrej : check = true
          ∧ (resolveSourceFrame env targetRect
              (aggregate env.useMaxPadding (currentResolution env)
                (currentMultisample env) f0 rest).padding
              (aggregate env.useMaxPadding (currentResolution env)
                (currentMultisample env) f0 rest).autoFit).1.width ≤ 1
          ∧ (resolveSourceFrame env targetRect
              (aggregate env.useMaxPadding (currentResolution env)
                (currentMultisample env) f0 rest).padding
              (aggregate env.useMaxPadding (currentResolution env)
                (currentMultisample env) f0 rest).autoFit).1.height ≤ 1
      · refine ⟨0, ?_, ?_⟩ <;>
          · simp only [cycleWorld, pushWithCheck, if_pos hrej]
            simp
      · have hred : cycleWorld env targetId targetRect (f0 :: rest) check st
            = (pop env (pushWithCheck env targetId targetRect (f0 :: rest) check
                st).world).2 := by
          simp only [cycleWorld, pushWithCheck, if_neg hrej, pushOpen_ok, if_true]
        have hpw : pushWithCheck env targetId targetRect (f0 :: rest) check st
            = pushOpen env f0 rest
                { st.statePool.headD FState.new with
                  resolution := (aggregate env.useMaxPadding (currentResolution env)
                    (currentMultisample env) f0 rest).resolution,
                  legacy := (aggregate env.useMaxPadding (currentResolution env)
                    (currentMultisample env) f0 rest).legacy,
                  targetId := some targetId,
                  sourceFrame := (resolveSourceFrame env targetRect
                    (aggregate env.useMaxPadding (currentResolution env)
                      (currentMultisample env) f0 rest).padding
                    (aggregate env.useMaxPadding (currentResolution env)
                      (currentMultisample env) f0 rest).autoFit).1 }
                (rootUpdate env st.filterStack) st.statePool.tail
                (resolveSourceFrame env targetRect
                  (aggregate env.useMaxPadding (currentResolution env)
                    (currentMultisample env) f0 rest).padding
                  (aggregate env.useMaxPadding (currentResolution env)
                    (currentMultisample env) f0 rest).autoFit).1
                (resolveSourceFrame env targetRect
                  (aggregate env.useMaxPadding (currentResolution env)
                    (currentMultisample env) f0 rest).padding
                  (aggregate env.useMaxPadding (currentResolution env)
                    (currentMultisample env) f0 rest).autoFit).2
                (aggregate env.useMaxPadding (currentResolution env)
                  (currentMultisample env) f0 rest) st := by
          simp only [pushWithCheck, if_neg hrej]
        rw [hred, hpw]
        cases srest with
        | nil =>
            have hstk : rootUpdate env st.filterStack
                = { s1 with renderTexture := env.current } :: [] := by
              rw [hstack]
              simp [rootUpdate]
            exact openClose_balance env f0 rest _ _ _ _ _ _ st _ _ hstk hclean
        | cons s2 more =>
            have hstk : rootUpdate env st.filterStack = s1 :: s2 :: more := by
              rw [hstack, rootUpdate.eq_def, if_neg (by simp)]
            exact openClose_balance env f0 rest _ _ _ _ _ _ st _ _ hstk hclean

theorem c1_witness :
    ∃ k,
      countAcq (cycleWorld envBase 7 ⟨0, 0, 40, 40⟩ [fxBackdrop] false
        worldBase).trace = countAcq worldBase.trace + k
      ∧ countRel (cycleWorld envBase 7 ⟨0, 0, 40, 40⟩ [fxBackdrop] false
        worldBase).trace = countRel worldBase.trace + k :=
  c1_texture_balance envBase 7 ⟨0, 0, 40, 40⟩ [fxBackdrop] false FState.new []
    worldBase rfl (by decide)

/-! ### C9 -/

/-- C9: over one open/close cycle started on a trace that has not yet
recorded the legacy upload, the legacy global uniform fields
(`filterArea`/`filterClamp`) are populated during `pop` if and only if at
least one filter of the chain declared `legacy = true` or left `legacy`
undeclared (undeclared counts as legacy). -/
theorem c9_legacy_uniforms (env : Env) (targetId : ℕ) (targetRect : Rect)
    (f0 : FilterObj) (rest : List FilterObj) (s1 : FState) (srest : List FState)
    (st : W)
    (hstack : st.filterStack = s1 :: srest)
    (hclean : ∀ f ∈ f0 :: rest, f.backdropActive = false)
    (hnotyet : Ev.legacyUniforms ∉ st.trace) :
    (Ev.legacyUniforms ∈ (cycleWorld env targetId targetRect (f0 :: rest) false
        st).trace
      ↔ (f0 :: rest).any (fun f => f.legacy.getD true) = true) := by
  have hred : cycleWorld env targetId targetRect (f0 :: rest) false st
      = (pop env (pushWithCheck env targetId targetRect (f0 :: rest) false
          st).world).2 := by
    simp only [cycleWorld, pushWithCheck, Bool.false_eq_true, false_and, if_false,
      pushOpen_ok, if_true]
  rw [hred, push_false_eq]
  have hlegiff :
      ∀ (t1 : FState) (trest : List FState),
        rootUpdate env st.filterStack = t1 :: trest →
        (Ev.legacyUniforms ∈ (pop env (pushWithCheck env targetId targetRect
            (f0 :: rest) false st).world).2.trace
          ↔ Ev.legacyUniforms ∈ st.trace
            ∨ (aggregate env.useMaxPadding (currentResolution env)
                (currentMultisample env) f0 rest).legacy = true) := by
    intro t1 trest hstk
    rw [push_false_eq]
    exact openClose_legacy env f0 rest _ _ _ _ _ _ st t1 trest hstk hclean
  have hfin :
      (Ev.legacyUniforms ∈ (pop env (pushWithCheck env targetId targetRect
          (f0 :: rest) false st).world).2.trace
        ↔ Ev.legacyUniforms ∈ st.trace
          ∨ (aggregate env.useMaxPadding (currentResolution env)
              (currentMultisample env) f0 rest).legacy = true) := by
    cases srest with
    | nil =>
        refine hlegiff { s1 with renderTexture := env.current } [] ?_
        rw [hstack]
        simp [rootUpdate]
    | cons s2 more =>
        refine hlegiff s1 (s2 :: more) ?_
        rw [hstack, rootUpdate.eq_def, if_neg (by simp)]
  rw [push_false_eq] at hfin
  rw [hfin, aggregate_legacy_any]
  simp [hnotyet]

theorem c9_witness :
    (Ev.legacyUniforms ∈ (cycleWorld envBase 7 ⟨0, 0, 40, 40⟩ [fxPlain] false
        worldBase).trace
      ↔ ([fxPlain].any (fun f => f.legacy.getD true)) = true) :=
  c9_legacy_uniforms envBase 7 ⟨0, 0, 40, 40⟩ fxPlain [] FState.new [] worldBase
    rfl (by decide) (by decide)

/-! ### C2 -/

/-- C2 (amended): when `pushWithCheck` runs with the empty-bounds check
enabled and the rounded source frame is at most 1×1, the call returns a
negative result, records no event — so it acquires no working texture and
attempts no backdrop capture — and pushes no region state; but the stack
is not always left unchanged: it ends as `rootUpdate env st.filterStack`,
which keeps the length yet refreshes the root state's `renderTexture` to
the currently bound target whenever the root is alone on the stack. -/
theorem c2_empty_bounds_rejection (env : Env) (targetId : ℕ) (targetRect : Rect)
    (f0 : FilterObj) (rest : List FilterObj) (st : W)
    (hw : (resolveSourceFrame env targetRect
        (aggregate env.useMaxPadding (currentResolution env) (currentMultisample env)
          f0 rest).padding
        (aggregate env.useMaxPadding (currentResolution env) (currentMultisample env)
          f0 rest).autoFit).1.width ≤ 1)
    (hh : (resolveSourceFrame env targetRect
        (aggregate env.useMaxPadding (currentResolution env) (currentMultisample env)
          f0 rest).padding
        (aggregate env.useMaxPadding (currentResolution env) (currentMultisample env)
          f0 rest).autoFit).1.height ≤ 1) :
    (pushWithCheck env targetId targetRect (f0 :: rest) true st).ok = false
    ∧ (pushWithCheck env targetId targetRect (f0 :: rest) true st).world.trace
        = st.trace
    ∧ countAcq (pushWithCheck env targetId targetRect (f0 :: rest) true
        st).world.trace = countAcq st.trace
    ∧ (Ev.prepareB ∈ (pushWithCheck env targetId targetRect (f0 :: rest) true
          st).world.trace ↔ Ev.prepareB ∈ st.trace)
    ∧ (pushWithCheck env targetId targetRect (f0 :: rest) true st).world.filterStack
        = rootUpdate env st.filterStack
    ∧ (pushWithCheck env targetId targetRect (f0 :: rest) true
        st).world.filterStack.length = st.filterStack.length
    ∧ (pushWithCheck env targetId targetRect (f0 :: rest) true st).world.crashed
        = st.crashed := by
  have hcond : True
      ∧ (resolveSourceFrame env targetRect
          (aggregate env.useMaxPadding (currentResolution env)
            (currentMultisample env) f0 rest).padding
          (aggregate env.useMaxPadding (currentResolution env)
            (currentMultisample env) f0 rest).autoFit).1.width ≤ 1
      ∧ (resolveSourceFrame env targetRect
          (aggregate env.useMaxPadding (currentResolution env)
            (currentMultisample env) f0 rest).padding
          (aggregate env.useMaxPadding (currentResolution env)
            (currentMultisample env) f0 rest).autoFit).1.height ≤ 1 :=
    ⟨trivial, hw, hh⟩
  refine ⟨?_, ?_, ?_, ?_, ?_, ?_, ?_⟩ <;>
    · simp only [pushWithCheck, if_pos hcond]
      try exact rootUpdate_length env st.filterStack

/-- C2 (counterexample to the original wording): a rejected empty-bounds
push does not always leave the region stack unchanged — with a render
texture bound and a lone root state whose `renderTexture` slot is empty,
the rejection path has already refreshed that slot, so the stack differs
from the one the call started with. -/
theorem c2_counterexample :
    (pushWithCheck envBase 7 ⟨0, 0, -10, -10⟩ [fxPlain] true worldBase).ok = false
    ∧ (pushWithCheck envBase 7 ⟨0, 0, -10, -10⟩ [fxPlain] true
        worldBase).world.filterStack ≠ worldBase.filterStack := by
  constructor
  · norm_num [pushWithCheck, resolveSourceFrame, projectedVisible, aggregate,
      aggStep, aggInit, resolveRes, resolveMs, currentResolution,
      currentMultisample, Rect.pad, Rect.fit, envBase, worldBase, fxPlain,
      texBound, poolExact]
  · norm_num [pushWithCheck, resolveSourceFrame, projectedVisible, aggregate,
      aggStep, aggInit, resolveRes, resolveMs, currentResolution,
      currentMultisample, Rect.pad, Rect.fit, rootUpdate, FState.new, FState.clear,
      envBase, worldBase, fxPlain, texBound, poolExact]
    simp

theorem c2_witness :
    (pushWithCheck envBase 7 ⟨5, 5, -10, -10⟩ [fxPlain] true worldBase).ok = false :=
  (c2_empty_bounds_rejection envBase 7 ⟨5, 5, -10, -10⟩ fxPlain [] worldBase
    (by norm_num [resolveSourceFrame, projectedVisible, aggregate, aggStep, aggInit,
      resolveRes, resolveMs, currentResolution, currentMultisample, Rect.pad,
      Rect.fit, envBase, fxPlain, texBound])
    (by norm_num [resolveSourceFrame, projectedVisible, aggregate, aggStep, aggInit,
      resolveRes, resolveMs, currentResolution, currentMultisample, Rect.pad,
      Rect.fit, envBase, fxPlain, texBound])).1

/-! ### C3 -/

/-- C3: a 3-filter chain whose last filter is marked trivial runs exactly
two `apply` invocations over its cycle — index 0 with the first filter's
state and no blending, then index 1 carrying the trivial filter's nominal
state object with blending (the trivial filter's own apply never runs and
the chain executes one filter shorter) — and after `pop` the swapped
state objects are restored onto the returned chain. -/
theorem c3_trivial_last :
    applyEvents (cycleWorld envBase 7 ⟨0, 0, 40, 40⟩
        [{ fxPlain with fstate := 11 }, { fxPlain with fstate := 22 },
         { fxPlain with trivial := true, fstate := 33 }] false worldBase).trace
      = [(0, 11, false), (1, 33, true)]
    ∧ (pop envBase (pushWithCheck envBase 7 ⟨0, 0, 40, 40⟩
        [{ fxPlain with fstate := 11 }, { fxPlain with fstate := 22 },
         { fxPlain with trivial := true, fstate := 33 }] false
        worldBase).world).1.map FilterObj.fstate = [11, 22, 33] := by
  constructor <;>
    norm_num [cycleWorld, pushWithCheck, pushOpen, rootUpdate, resolveSourceFrame,
      projectedVisible, aggregate, aggStep, aggInit, resolveRes, resolveMs,
      currentResolution, currentMultisample, backdropLoop, optStrTruthy,
      uvalTruthy, ensureFlip, readFlip, uget, uset, Rect.pad, Rect.fit,
      Rect.intersects, containsRect, getOptimalFilterTexture, returnTex,
      FState.new, FState.clear, pop, popUniforms, popBlit, popChain, pingPong,
      applyEv, backdropRelease, applyEvents, jround, Mat.identity, envBase,
      worldBase, fxPlain, texBound, poolExact]

/-! ### C4 -/

/-- C4 (amended): the aggregated chain `resolution` is the minimum of the
filters' declared resolutions (unset or zero falling back to the
enclosing target's, `||`-style) and the aggregated `multisample` the
minimum of the declared sample counts (unset falling back `??`-style);
both aggregates are permutation-invariant.  But what the pushed region
state records is the aggregate only when no backdrop was captured — a
captured backdrop overrides the state's `resolution` with the bound
target's — and the aggregated `multisample` goes to the acquired working
texture, not to the region state's own `multisample` field. -/
theorem c4_min_aggregation (env : Env) (targetId : ℕ) (targetRect : Rect)
    (u : Bool) (cur : ℚ) (cms : ℕ) (f0 : FilterObj) (rest : List FilterObj)
    (f0' : FilterObj) (rest' : List FilterObj) (st : W)
    (hperm : (f0 :: rest).Perm (f0' :: rest')) :
    ((aggregate u cur cms f0 rest).resolution ∈ (f0 :: rest).map (resolveRes cur)
      ∧ ∀ r ∈ (f0 :: rest).map (resolveRes cur),
          (aggregate u cur cms f0 rest).resolution ≤ r)
    ∧ ((aggregate u cur cms f0 rest).multisample ∈ (f0 :: rest).map (resolveMs cms)
      ∧ ∀ m ∈ (f0 :: rest).map (resolveMs cms),
          (aggregate u cur cms f0 rest).multisample ≤ m)
    ∧ (aggregate u cur cms f0 rest).resolution
        = (aggregate u cur cms f0' rest').resolution
    ∧ (aggregate u cur cms f0 rest).multisample
        = (aggregate u cur cms f0' rest').multisample
    ∧ ((pushWithCheck env targetId targetRect (f0 :: rest) false
          st).world.filterStack.headD FState.new).resolution
        = (if backdropCaptured env
              (resolveSourceFrame env targetRect
                (aggregate env.useMaxPadding (currentResolution env)
                  (currentMultisample env) f0 rest).padding
                (aggregate env.useMaxPadding (currentResolution env)
                  (currentMultisample env) f0 rest).autoFit).2 (f0 :: rest)
           then currentResolution env
           else (aggregate env.useMaxPadding (currentResolution env)
              (currentMultisample env) f0 rest).resolution)
    ∧ (((pushWithCheck env targetId targetRect (f0 :: rest) false
          st).world.filterStack.headD FState.new).renderTexture.getD
          default).multisample
        = (aggregate env.useMaxPadding (currentResolution env)
            (currentMultisample env) f0 rest).multisample := by
  refine ⟨⟨?_, ?_⟩, ⟨?_, ?_⟩, ?_, ?_, ?_, ?_⟩
  · rw [aggregate_resolution_foldl, List.map_cons]
    rcases foldl_min_mem (rest.map (resolveRes cur)) (resolveRes cur f0) with h | h
    · rw [h]
      exact List.mem_cons_self _ _
    · exact List.mem_cons_of_mem _ h
  · intro r hr
    rw [aggregate_resolution_foldl]
    rw [List.map_cons, List.mem_cons] at hr
    rcases hr with h | h
    · exact h ▸ (foldl_min_le _ _).1
    · exact (foldl_min_le _ _).2 r h
  · rw [aggregate_multisample_foldl, List.map_cons]
    rcases foldl_min_mem (rest.map (resolveMs cms)) (resolveMs cms f0) with h | h
    · rw [h]
      exact List.mem_cons_self _ _
    · exact List.mem_cons_of_mem _ h
  · intro m hm
    rw [aggregate_multisample_foldl]
    rw [List.map_cons, List.mem_cons] at hm
    rcases hm with h | h
    · exact h ▸ (foldl_min_le _ _).1
    · exact (foldl_min_le _ _).2 m h
  · rw [aggregate_resolution_foldl, aggregate_resolution_foldl]
    refine foldl_min_head_perm ?_
    have h := hperm.map (resolveRes cur)
    rwa [List.map_cons, List.map_cons] at h
  · rw [aggregate_multisample_foldl, aggregate_multisample_foldl]
    refine foldl_min_head_perm ?_
    have h := hperm.map (resolveMs cms)
    rwa [List.map_cons, List.map_cons] at h
  · rw [push_false_eq]
    exact (pushOpen_spec env f0 rest _ _ _ _ _ _ st).2.2.2.2.2.2.2.2.2.2.1
  · rw [push_false_eq]
    exact (pushOpen_spec env f0 rest _ _ _ _ _ _ st).2.2.2.2.2.1

/-- C4 (counterexample to the original wording): a single filter declaring
resolution 1 inside a chain that captures a backdrop from a bound target
of resolution 2 produces a pushed region state whose recorded resolution
is 2 — the bound target's — and not the chain minimum 1. -/
theorem c4_counterexample :
    ((pushWithCheck envBase 7 ⟨0, 0, 40, 40⟩ [fxBackdrop] false
        worldBase).world.filterStack.headD FState.new).resolution = 2
    ∧ resolveRes (currentResolution envBase) fxBackdrop = 1 := by
  constructor
  · norm_num [pushWithCheck, pushOpen, rootUpdate, resolveSourceFrame,
      projectedVisible, aggregate, aggStep, aggInit, resolveRes, resolveMs,
      currentResolution, currentMultisample, backdropLoop, optStrTruthy,
      uvalTruthy, ensureFlip, readFlip, uget, uset, prepareBackdrop,
      prepareBackdropGo, Rect.pad, Rect.fit, Rect.intersects, containsRect,
      getOptimalFilterTexture, FState.new, jround, Mat.identity, envBase,
      worldBase, fxPlain, fxBackdrop, texBound, poolExact]
    simp
  · norm_num [resolveRes, currentResolution, envBase, fxBackdrop, fxPlain,
      texBound]

theorem c4_witness :
    (aggregate true 1 0 fxPlain [fxPad]).resolution
      = (aggregate true 1 0 fxPad [fxPlain]).resolution :=
  (c4_min_aggregation envBase 7 ⟨0, 0, 40, 40⟩ true 1 0 fxPlain [fxPad] fxPad
    [fxPlain] worldBase (List.Perm.swap fxPad fxPlain [])).2.2.1

/-! ### C7 -/

theorem pushOpen_nullBackdrop (env : Env) (f0 : FilterObj) (rest : List FilterObj)
    (state1 : FState) (stack0 pool0 : List FState) (sf : Rect) (agg : Agg) (st : W)
    (t1 : FState) (trest : List FState)
    (hstk : stack0 = t1 :: trest)
    (hclean : ∀ f ∈ f0 :: rest, f.backdropActive = false)
    (hobt : backdropObtainable env = false) :
    (∀ f ∈ (pushOpen env f0 rest state1 stack0 pool0 sf true agg st).filters,
      optStrTruthy f.backdropUniformName = true →
      ∃ bN, f.backdropUniformName = some bN
        ∧ uget f.uniforms bN = some (UVal.tex none))
    ∧ (¬ ∃ f ∈ (pushOpen env f0 rest state1 stack0 pool0 sf true agg
        st).filters, f.backdropActive = true)
    ∧ (pushOpen env f0 rest state1 stack0 pool0 sf true agg st).world.crashed
        = st.crashed
    ∧ ∃ a,
        countAcq (pop env (pushOpen env f0 rest state1 stack0 pool0 sf true
          agg st).world).2.trace
          = countAcq (pushOpen env f0 rest state1 stack0 pool0 sf true agg
              st).world.trace + a
        ∧ countRel (pop env (pushOpen env f0 rest state1 stack0 pool0 sf true
            agg st).world).2.trace
          = countRel (pushOpen env f0 rest state1 stack0 pool0 sf true agg
              st).world.trace + a + 1 := by
  subst hstk
  rcases pushOpen_spec env f0 rest state1 (t1 :: trest) pool0 sf true agg st with
    ⟨p1, p2, p3, p4, p5, p6, p7, p8, p9, p10, p11, p12, p13, p14, p15, p16, p17,
      p18, p19, p20⟩
  have hnoact : ¬ ∃ f ∈ (pushOpen env f0 rest state1 (t1 :: trest) pool0 sf true
      agg st).filters, f.backdropActive = true := by
    intro hx
    have hcap := (p19 hclean).1.mp hx
    rw [backdropCaptured, hobt] at hcap
    simp at hcap
  refine ⟨p20 rfl hobt, hnoact, p3, ?_⟩
  rcases Option.isSome_iff_exists.mp p5 with ⟨rtx, hrtx⟩
  have hgoodH : ∀ f ∈ ((pushOpen env f0 rest state1 (t1 :: trest) pool0 sf true agg
      st).world.filterStack.headD FState.new).filters, goodUniform f := by
    rw [p7]
    intro f hf ha
    exact (p19 hclean).2 f hf ha
  rcases pop_spec env (pushOpen env f0 rest state1 (t1 :: trest) pool0 sf true agg
    st).world _ t1 trest rtx p4 hrtx hgoodH with ⟨a, q1, q2, q3, q4, q5, q6⟩
  have hanyF : ((pushOpen env f0 rest state1 (t1 :: trest) pool0 sf true agg
      st).world.filterStack.headD FState.new).filters.any FilterObj.backdropActive
      = false := by
    rw [p7]
    cases hv : (pushOpen env f0 rest state1 (t1 :: trest) pool0 sf true agg
        st).filters.any FilterObj.backdropActive with
    | false => rfl
    | true =>
        rcases List.any_eq_true.mp hv with ⟨f, hf, ha⟩
        exact absurd ⟨f, hf, ha⟩ hnoact
  rw [hanyF] at q2
  refine ⟨a, q1, ?_⟩
  rw [q2]
  simp

/-- C7 (amended): when the backdrop loop runs (`canUseBackdrop` holds) but
`prepareBackdrop` cannot succeed — no render texture bound and an opaque
backbuffer — every filter that declared a backdrop uniform name has that
uniform assigned `null` (not skipped: an existing value is overwritten),
no filter is marked backdrop-active, the failure never throws, and the
matching `pop` releases exactly its chain textures (one more release than
its own acquisitions, no backdrop release). -/
theorem c7_null_backdrop (env : Env) (targetId : ℕ) (targetRect : Rect)
    (f0 : FilterObj) (rest : List FilterObj) (s1 : FState) (srest : List FState)
    (st : W)
    (hstack : st.filterStack = s1 :: srest)
    (hclean : ∀ f ∈ f0 :: rest, f.backdropActive = false)
    (hobt : backdropObtainable env = false)
    (hcanB : (resolveSourceFrame env targetRect
        (aggregate env.useMaxPadding (currentResolution env) (currentMultisample env)
          f0 rest).padding
        (aggregate env.useMaxPadding (currentResolution env) (currentMultisample env)
          f0 rest).autoFit).2 = true) :
    (∀ f ∈ (pushWithCheck env targetId targetRect (f0 :: rest) false st).filters,
      optStrTruthy f.backdropUniformName = true →
      ∃ bN, f.backdropUniformName = some bN
        ∧ uget f.uniforms bN = some (UVal.tex none))
    ∧ (¬ ∃ f ∈ (pushWithCheck env targetId targetRect (f0 :: rest) false
        st).filters, f.backdropActive = true)
    ∧ (pushWithCheck env targetId targetRect (f0 :: rest) false st).world.crashed
        = st.crashed
    ∧ ∃ a,
        countAcq (pop env (pushWithCheck env targetId targetRect (f0 :: rest) false
          st).world).2.trace
          = countAcq (pushWithCheck env targetId targetRect (f0 :: rest) false
              st).world.trace + a
        ∧ countRel (pop env (pushWithCheck env targetId targetRect (f0 :: rest)
            false st).world).2.trace
          = countRel (pushWithCheck env targetId targetRect (f0 :: rest) false
              st).world.trace + a + 1 := by
  rw [push_false_eq, hcanB]
  cases srest with
  | nil =>
      refine pushOpen_nullBackdrop env f0 rest _ _ _ _ _ st
        { s1 with renderTexture := env.current } [] ?_ hclean hobt
      rw [hstack]
      simp [rootUpdate]
  | cons s2 more =>
      refine pushOpen_nullBackdrop env f0 rest _ _ _ _ _ st s1 (s2 :: more) ?_
        hclean hobt
      rw [hstack, rootUpdate.eq_def, if_neg (by simp)]

/-- C7 (counterexample to the original wording): with capture impossible
(backbuffer bound, opaque background), a filter that already held a
texture value under its declared backdrop uniform name has that value
overwritten with `null` — the uniform is assigned, not skipped. -/
theorem c7_counterexample :
    uget ({ fxBackdrop with
        uniforms := [("u", UVal.tex (some 99))] } : FilterObj).uniforms "u"
      = some (UVal.tex (some 99))
    ∧ uget ((pushWithCheck { envBase with current := none } 7 ⟨0, 0, 40, 40⟩
        [{ fxBackdrop with uniforms := [("u", UVal.tex (some 99))] }] false
        worldBase).filters.headD default).uniforms "u" = some (UVal.tex none) := by
  constructor
  · simp [uget, fxBackdrop, fxPlain]
  · norm_num [pushWithCheck, pushOpen, rootUpdate, resolveSourceFrame,
      projectedVisible, aggregate, aggStep, aggInit, resolveRes, resolveMs,
      currentResolution, currentMultisample, backdropLoop, optStrTruthy,
      uvalTruthy, ensureFlip, readFlip, uget, uset, prepareBackdrop,
      prepareBackdropGo, Rect.pad, Rect.fit, Rect.intersects, containsRect,
      getOptimalFilterTexture, FState.new, jround, Mat.identity, envBase,
      worldBase, fxPlain, fxBackdrop, texBound, poolExact]
    simp

theorem c7_witness :
    (pushWithCheck { envBase with current := none } 7 ⟨0, 0, 40, 40⟩
      [fxBackdrop] false worldBase).world.crashed = worldBase.crashed :=
  (c7_null_backdrop { envBase with current := none } 7 ⟨0, 0, 40, 40⟩ fxBackdrop []
    FState.new [] worldBase rfl (by decide) (by decide)
    (by norm_num [resolveSourceFrame, projectedVisible, aggregate, aggStep, aggInit,
      resolveRes, resolveMs, currentResolution, currentMultisample, Rect.pad,
      Rect.fit, envBase, fxBackdrop, fxPlain, texBound])).2.2.1

/-! ### C10 -/

/-- C10 (amended): the multisample guard on backdrop capture only
survives on the auto-fit path.  When the chain's aggregated `autoFit`
holds and the bound target (or the renderer) is multisampled, the region
opens with `canUseBackdrop = false`: `prepareBackdrop` is never invoked,
the chain is returned untouched (no uniform or backdrop-active flag set),
and the chain's resolved resolution is not overridden.  (Without
auto-fit the guard is overwritten by the containment test and a backdrop
can be captured from a multisampled target — see the counterexample.) -/
theorem c10_multisample_no_backdrop (env : Env) (targetId : ℕ) (targetRect : Rect)
    (f0 : FilterObj) (rest : List FilterObj) (st : W)
    (hms : currentMultisample env ≠ 0)
    (hfit : (aggregate env.useMaxPadding (currentResolution env)
        (currentMultisample env) f0 rest).autoFit = true) :
    (resolveSourceFrame env targetRect
        (aggregate env.useMaxPadding (currentResolution env) (currentMultisample env)
          f0 rest).padding
        (aggregate env.useMaxPadding (currentResolution env) (currentMultisample env)
          f0 rest).autoFit).2 = false
    ∧ (Ev.prepareB ∈ (pushWithCheck env targetId targetRect (f0 :: rest) false
          st).world.trace ↔ Ev.prepareB ∈ st.trace)
    ∧ (pushWithCheck env targetId targetRect (f0 :: rest) false st).filters
        = f0 :: rest
    ∧ ((pushWithCheck env targetId targetRect (f0 :: rest) false
          st).world.filterStack.headD FState.new).resolution
        = (aggregate env.useMaxPadding (currentResolution env)
            (currentMultisample env) f0 rest).resolution := by
  have hcb : (resolveSourceFrame env targetRect
      (aggregate env.useMaxPadding (currentResolution env) (currentMultisample env)
        f0 rest).padding
      (aggregate env.useMaxPadding (currentResolution env) (currentMultisample env)
        f0 rest).autoFit).2 = false := by
    simp only [resolveSourceFrame, hfit, eq_self_iff_true, if_true]
    exact decide_eq_false hms
  refine ⟨hcb, ?_, ?_, ?_⟩
  · rw [push_false_eq, hcb]
    exact ((pushOpen_spec env f0 rest _ _ _ _ _ _
      st).2.2.2.2.2.2.2.2.2.2.2.2.2.2.2.2.2.1 rfl).1
  · rw [push_false_eq, hcb]
    exact ((pushOpen_spec env f0 rest _ _ _ _ _ _
      st).2.2.2.2.2.2.2.2.2.2.2.2.2.2.2.2.2.1 rfl).2
  · rw [push_false_eq, hcb]
    have h11 := (pushOpen_spec env f0 rest
      { st.statePool.headD FState.new with
        resolution := (aggregate env.useMaxPadding (currentResolution env)
          (currentMultisample env) f0 rest).resolution,
        legacy := (aggregate env.useMaxPadding (currentResolution env)
          (currentMultisample env) f0 rest).legacy,
        targetId := some targetId,
        sourceFrame := (resolveSourceFrame env targetRect
          (aggregate env.useMaxPadding (currentResolution env)
            (currentMultisample env) f0 rest).padding
          (aggregate env.useMaxPadding (currentResolution env)
            (currentMultisample env) f0 rest).autoFit).1 }
      (rootUpdate env st.filterStack) st.statePool.tail
      (resolveSourceFrame env targetRect
        (aggregate env.useMaxPadding (currentResolution env)
          (currentMultisample env) f0 rest).padding
        (aggregate env.useMaxPadding (currentResolution env)
          (currentMultisample env) f0 rest).autoFit).1
      false
      (aggregate env.useMaxPadding (currentResolution env)
        (currentMultisample env) f0 rest)
      st).2.2.2.2.2.2.2.2.2.2.1
    rw [h11]
    simp [backdropCaptured]

/-- The baseline environment with a multisampled render texture bound. -/
def envMs4 : Env := { envBase with current := some { texBound with multisample := 4 } }

/-- C10 (counterexample to the claim): with a 4-sample render texture
bound, a backdrop-requesting filter chain that disables auto-fit and sits
inside the visible frame does invoke `prepareBackdrop` — the multisample
guard of line 128 is overwritten by the containment test of line 154. -/
theorem c10_counterexample :
    currentMultisample envMs4 ≠ 0
    ∧ Ev.prepareB ∈ (pushWithCheck envMs4 7 ⟨10, 10, 40, 40⟩
        [{ fxBackdrop with autoFit := false }] false worldBase).world.trace := by
  constructor
  · decide
  · norm_num [pushWithCheck, pushOpen, rootUpdate, resolveSourceFrame,
      projectedVisible, aggregate, aggStep, aggInit, resolveRes, resolveMs,
      currentResolution, currentMultisample, backdropLoop, optStrTruthy,
      uvalTruthy, ensureFlip, readFlip, uget, uset, prepareBackdrop,
      prepareBackdropGo, Rect.pad, Rect.fit, Rect.intersects, containsRect,
      getOptimalFilterTexture, FState.new, jround, Mat.identity, envMs4, envBase,
      worldBase, fxPlain, fxBackdrop, texBound, poolExact]
    simp

theorem c10_witness :
    (Ev.prepareB ∈ (pushWithCheck envMs4 7 ⟨10, 10, 40, 40⟩ [fxBackdrop] false
        worldBase).world.trace ↔ Ev.prepareB ∈ worldBase.trace) :=
  (c10_multisample_no_backdrop envMs4 7 ⟨10, 10, 40, 40⟩ fxBackdrop [] worldBase
    (by decide) rfl).2.1

end Picture
